import Mathlib

/-!
# RWDH2 driver: protocol engine

A shallow embedding of `RWDH2.cpp` / `RWDH2.h`, the Arduino driver for the RWD Hitag2
RFID module, together with theorems about the frames it sends and the values it returns.

Conventions of the embedding.

* Machine bytes are `Nat`; a conversion to `uint8_t` is written `% 256`, the 16-bit poll
  timer is written `% 65536`.
* The C++ overloads are told apart by their number of arguments: `write1`, `write2`,
  `write3`, `read0`, `read1`, `read2`, `listening0`, `listening1`, `available0`,
  `available1`, `writeEEPROM2`, `writeEEPROM3`.
* A pair (pointer, size) is a `List Nat` holding the `size` bytes; a bare pointer whose
  elements are read by index is a `List Nat` read with `List.getD`.  The sizes passed in
  the driver are 1, 2, 3, 4 and 6, so the 8-bit counters of the `for` loops over them do not
  wrap; an output buffer is a `List Nat` of the capacity the caller provided.
* A loop that the source does not bound (a poller called with timeout 0, the drain loop of
  `read(buffer)`) takes a bound on the number of evaluations of its condition and returns
  `none` when the bound is reached; the pollers with the default timeout are total.
* A `bool` function returns `Option Bool`: `some b` when a `return` statement produced `b`,
  `none` when control reaches the closing brace of the function without a `return`
  statement, so that the value handed to the caller is indeterminate.  The state paired with
  `none` records how far the defined part of the execution got; the behaviour after that
  point is undefined in C++ and no statement about it is derived from that state.
* The hardware (CTS pin, serial stream, clock, debug console) is explicit state in `World`.
-/

namespace RWDH2

/-! ## Constants of `RWDH2.h` -/

def RWDH2_READ_MASK : Nat := 0b00111110
def RWDH2_WRITE_MASK : Nat := 0b00111110
def RWDH2_STATUS_MASK : Nat := 0b00101000
def RWDH2_UID_MASK : Nat := 0b00111110
def RWDH2_PROGEEPROM_MASK : Nat := 0b00000001

def RWDH2_OKAY : Nat := 0b11010110

def RWDH2_CMD_READ : Nat := 0x52
def RWDH2_CMD_WRITE : Nat := 0x57
def RWDH2_CMD_STATUS : Nat := 0x53
def RWDH2_CMD_UID : Nat := 0x55
def RWDH2_CMD_MESSAGE : Nat := 0x7A
def RWDH2_CMD_PROGEEPROM : Nat := 0x50

def RWDH2_DEFAULT_TIMEOUT : Nat := 1000

/-! ## The simulated hardware and the driver object -/

/-- State of one driver object together with the hardware it talks to.

* `cts n` is the level returned by the `n`-th `digitalRead(_cts_pin)` (`true` = HIGH);
  `ctsReads` counts the reads made so far.
* `rx` is the receive buffer of the serial stream.  `arrive n` are the bytes the device has
  delivered since the previous look at the stream, appended to `rx` just before the `n`-th
  call of `_serial->available()` or `_serial->read()`; `rxObs` counts those calls.
* `tx` are the bytes handed to `_serial->write`, oldest first.
* `millis` is the time spent in `delay`, `console` the lines printed with `Serial.println`.
* `last_ack` is the member `_last_ack`. -/
structure World where
  cts : Nat → Bool
  ctsReads : Nat
  arrive : Nat → List Nat
  rxObs : Nat
  rx : List Nat
  tx : List Nat
  millis : Nat
  console : List String
  last_ack : Nat

/-- The call `digitalRead(_cts_pin) == HIGH`. -/
def digitalRead (w : World) : Bool × World :=
  (w.cts w.ctsReads, { w with ctsReads := w.ctsReads + 1 })

/-- The call `delay(ms)`. -/
def delay (ms : Nat) (w : World) : World :=
  { w with millis := w.millis + ms }

/-- The call `Serial.println(line)`. -/
def println (line : String) (w : World) : World :=
  { w with console := w.console ++ [line] }

/-- The call `_serial->write(b)`. -/
def serialWrite (b : Nat) (w : World) : World :=
  { w with tx := w.tx ++ [b] }

/-- The call `_serial->available()`, as a truth value. -/
def serialAvailable (w : World) : Bool × World :=
  let buf := w.rx ++ w.arrive w.rxObs
  (!buf.isEmpty, { w with rx := buf, rxObs := w.rxObs + 1 })

/-- The call `_serial->read()`: the oldest byte of the receive buffer, or `-1`, which is
255 once stored in a `uint8_t`, when the buffer is empty. -/
def serialRead (w : World) : Nat × World :=
  match w.rx ++ w.arrive w.rxObs with
  | [] => (255, { w with rx := [], rxObs := w.rxObs + 1 })
  | b :: rest => (b, { w with rx := rest, rxObs := w.rxObs + 1 })

/-- The constructor `RWDH2::RWDH2`: a fresh driver object on the given hardware. -/
def init (cts : Nat → Bool) (arrive : Nat → List Nat) (rx : List Nat) : World :=
  { cts := cts, ctsReads := 0, arrive := arrive, rxObs := 0, rx := rx, tx := [],
    millis := 0, console := [], last_ack := RWDH2_OKAY }

/-- The accessor `RWDH2::getLastAck`. -/
def getLastAck (w : World) : Nat := w.last_ack

/-! ## Timeout pollers -/

/-- The loop of `RWDH2::listening(uint16_t timeout)`, started with `timer`.  The first
argument bounds the number of evaluations of the loop condition; `none` means that the
bound was reached before the loop ended. -/
def listeningLoop (timeout : Nat) : Nat → Nat → World → Option (Bool × World)
  | 0, _, _ => none
  | fuel + 1, timer, w =>
    let (high, w1) := digitalRead w
    if high then
      if timeout > 0 then
        if timer < timeout then
          listeningLoop timeout fuel ((timer + 5) % 65536) (delay 5 w1)
        else
          some (false, println "RWDH2::listening timeout" w1)
      else
        listeningLoop timeout fuel timer (delay 5 w1)
    else
      some (true, w1)

/-- The function `RWDH2::listening(uint16_t timeout)`. -/
def listening1 (timeout fuel : Nat) (w : World) : Option (Bool × World) :=
  listeningLoop timeout fuel 0 w

/-- The loop of `RWDH2::available(uint16_t timeout)`, started with `timer`; the first
argument bounds the number of evaluations of the loop condition. -/
def availableLoop (timeout : Nat) : Nat → Nat → World → Option (Bool × World)
  | 0, _, _ => none
  | fuel + 1, timer, w =>
    let (avail, w1) := serialAvailable w
    if !avail then
      if timeout > 0 then
        if timer < timeout then
          availableLoop timeout fuel ((timer + 5) % 65536) (delay 5 w1)
        else
          some (false, println "RWDH2::available timeout" w1)
      else
        availableLoop timeout fuel timer (delay 5 w1)
    else
      some (true, w1)

/-- The function `RWDH2::available(uint16_t timeout)`. -/
def available1 (timeout fuel : Nat) (w : World) : Option (Bool × World) :=
  availableLoop timeout fuel 0 w

/-- A number of loop-condition evaluations that a poller with a positive `timeout` never
exceeds (see `listeningLoop_terminates`, `availableLoop_terminates`). -/
def pollFuel (timeout : Nat) : Nat := timeout / 5 + 2

/-- The function `RWDH2::listening()`: `listening(RWDH2_DEFAULT_TIMEOUT)`.  The `none` branch
is never taken (`listening1_default_isSome`). -/
def listening0 (w : World) : Bool × World :=
  match listening1 RWDH2_DEFAULT_TIMEOUT (pollFuel RWDH2_DEFAULT_TIMEOUT) w with
  | some r => r
  | none => (false, w)

/-- The function `RWDH2::available()`: `available(RWDH2_DEFAULT_TIMEOUT)`.  The `none` branch
is never taken (`available1_default_isSome`). -/
def available0 (w : World) : Bool × World :=
  match available1 RWDH2_DEFAULT_TIMEOUT (pollFuel RWDH2_DEFAULT_TIMEOUT) w with
  | some r => r
  | none => (false, w)

/-! ## Reading -/

/-- The function `uint8_t RWDH2::read()`. -/
def read0 (w : World) : Nat × World :=
  let (b, w1) := serialRead (delay 1 w)
  (b % 256, w1)

/-- The loop `while (_serial->available()) { buffer[i++] = read(); }` of
`RWDH2::read(uint8_t* buffer)`, with its 8-bit index `i`.  The first argument bounds the
number of evaluations of the loop condition. -/
def read1Loop : Nat → Nat → List Nat → World → Option (List Nat × World)
  | 0, _, _, _ => none
  | fuel + 1, i, buffer, w =>
    let (avail, w1) := serialAvailable w
    if avail then
      let (b, w2) := read0 w1
      read1Loop fuel ((i + 1) % 256) (buffer.set i b) w2
    else
      some (buffer, w1)

/-- The function `bool RWDH2::read(uint8_t* buffer)`. -/
def read1 (buffer : List Nat) (fuel : Nat) (w : World) : Option (Bool × List Nat × World) :=
  let (avail, w1) := available0 w
  if avail then
    match read1Loop fuel 0 buffer w1 with
    | some (buffer1, w2) => some (true, buffer1, w2)
    | none => none
  else
    some (false, buffer, w1)

/-- The loop `for (uint8_t i = 0; i < size; i++) buffer[i] = read();` entered at index `i`
with `n` iterations left (`size` is 4 at both call sites). -/
def read2Loop : Nat → Nat → List Nat → World → List Nat × World
  | 0, _, buffer, w => (buffer, w)
  | n + 1, i, buffer, w =>
    let (b, w1) := read0 w
    read2Loop n (i + 1) (buffer.set i b) w1

/-- The function `bool RWDH2::read(uint8_t* buffer, size_t size)`. -/
def read2 (buffer : List Nat) (size : Nat) (w : World) : Bool × List Nat × World :=
  let (avail, w1) := available0 w
  if avail then
    let (buffer1, w2) := read2Loop size 0 buffer w1
    (true, buffer1, w2)
  else
    (false, buffer, w1)

/-! ## Writing -/

/-- The function `void RWDH2::write(uint8_t cmd)`. -/
def write1 (cmd : Nat) (w : World) : World :=
  serialWrite cmd w

/-- The loop `for (uint8_t i = 0; i < size; i++) write(cmd[i]);`. -/
def write3Loop : List Nat → World → World
  | [], w => w
  | c :: cs, w => write3Loop cs (write1 c w)

/-- The function `bool RWDH2::write(uint8_t* cmd, uint8_t mask, size_t size)`.  When the
device is not listening the function body ends without a `return` statement: the value is
`none`, and the state paired with it is the state in which control reaches the closing brace.
What the program does from there on is undefined in C++ and is not described by that state. -/
def write3 (cmd : List Nat) (mask : Nat) (w : World) : Option Bool × World :=
  let (l, w1) := listening0 w
  if l then
    let w2 := write3Loop cmd w1
    let (avail, w3) := available0 w2
    if avail then
      let (r, w4) := read0 w3
      let w5 := { w4 with last_ack := r }
      (some ((w5.last_ack &&& mask) == (RWDH2_OKAY &&& mask)), w5)
    else
      (some false, w3)
  else
    (none, w1)

/-- The function `bool RWDH2::write(uint8_t cmd, uint8_t mask)`: its body is the statement
`write(&cmd, mask, 1);` and nothing else, so it never executes a `return`; the state paired
with `none` is the state in which control reaches the closing brace. -/
def write2 (cmd mask : Nat) (w : World) : Option Bool × World :=
  let (_, w1) := write3 [cmd] mask w
  (none, w1)

/-! ## Memory access layer -/

/-- The function `RWDH2::writeTag`. -/
def writeTag (page : Nat) (data : List Nat) (w : World) : Option Bool × World :=
  let c := [RWDH2_CMD_WRITE, page, data.getD 0 0, data.getD 1 0, data.getD 2 0, data.getD 3 0]
  write3 c RWDH2_WRITE_MASK w

/-- The function `RWDH2::readTag`; a condition without a value leaves the outcome
indeterminate. -/
def readTag (page : Nat) (data : List Nat) (w : World) : Option Bool × List Nat × World :=
  let c := [RWDH2_CMD_READ, page]
  match write3 c RWDH2_READ_MASK w with
  | (some true, w1) =>
    let (b, data1, w2) := read2 data 4 w1
    (some b, data1, w2)
  | (some false, w1) => (some false, data, w1)
  | (none, w1) => (none, data, w1)

/-- The loop of `RWDH2::writeEEPROM(uint8_t, uint8_t*, size_t)` entered at index `i` with the
bytes `data[i], data[i+1], ...` still to be programmed.  The address `start_address + i` is
stored in a `uint8_t`. -/
def writeEEPROM3Loop (start_address : Nat) : Nat → List Nat → World → Option Bool × World
  | _, [], w => (some true, w)
  | i, d :: ds, w =>
    let c := [RWDH2_CMD_PROGEEPROM, (start_address + i) % 256, d]
    match write3 c RWDH2_PROGEEPROM_MASK w with
    | (some true, w1) => writeEEPROM3Loop start_address (i + 1) ds w1
    | (some false, w1) => (some false, w1)
    | (none, w1) => (none, w1)

/-- The function `RWDH2::writeEEPROM(uint8_t start_address, uint8_t* data, size_t size)`. -/
def writeEEPROM3 (start_address : Nat) (data : List Nat) (w : World) : Option Bool × World :=
  let (l, w1) := listening0 w
  if l then
    writeEEPROM3Loop start_address 0 data w1
  else
    (some false, w1)

/-- The function `RWDH2::writeEEPROM(uint8_t address, uint8_t data)`. -/
def writeEEPROM2 (address data : Nat) (w : World) : Option Bool × World :=
  writeEEPROM3 address [data] w

/-! ## Reader facade -/

/-- The function `RWDH2::enableUID`. -/
def enableUID (w : World) : Option Bool × World :=
  writeEEPROM3 0xC [0xFF, 0xFF, 0xFF, 0xFF] w

/-- The function `RWDH2::authoriseTag`; the argument `12+4*page` is converted to `uint8_t`. -/
def authoriseTag (uid : List Nat) (page : Nat) (w : World) : Option Bool × World :=
  writeEEPROM3 ((12 + 4 * page) % 256) (uid.take 4) w

/-- The loop of `RWDH2::deauthoriseAllTags` entered at `page` with `n` iterations left. -/
def deauthoriseAllTagsLoop (data : List Nat) : Nat → Nat → World → Option Bool × World
  | 0, _, w => (some true, w)
  | n + 1, page, w =>
    match writeEEPROM3 ((12 + 4 * page) % 256) data w with
    | (some true, w1) => deauthoriseAllTagsLoop data n (page + 1) w1
    | (some false, w1) => (some false, w1)
    | (none, w1) => (none, w1)

/-- The function `RWDH2::deauthoriseAllTags`. -/
def deauthoriseAllTags (w : World) : Option Bool × World :=
  deauthoriseAllTagsLoop [0x0, 0x0, 0x0, 0x0] 60 0 w

/-- The function `RWDH2::writeEEPROMRWDH2Password`. -/
def writeEEPROMRWDH2Password (password : List Nat) (w : World) : Option Bool × World :=
  writeEEPROM3 4 (password.take 4) w

/-- The function `RWDH2::writeTagRWDH2Password`. -/
def writeTagRWDH2Password (password : List Nat) (w : World) : Option Bool × World :=
  writeTag 1 password w

/-- The function `RWDH2::writeEEPROMTagPassword`. -/
def writeEEPROMTagPassword (password : List Nat) (w : World) : Option Bool × World :=
  writeEEPROM3 9 (password.take 3) w

/-- The function `RWDH2::writeTagTagPassword`. -/
def writeTagTagPassword (password : List Nat) (w : World) : Option Bool × World :=
  let data := [0x06, password.getD 0 0, password.getD 1 0, password.getD 2 0]
  writeTag 3 data w

/-- The function `RWDH2::getStatus`: it returns what `write(cmd, mask)` hands back. -/
def getStatus (w : World) : Option Bool × World :=
  write2 RWDH2_CMD_STATUS RWDH2_STATUS_MASK w

/-- The function `RWDH2::getUID`; a condition without a value leaves the outcome
indeterminate. -/
def getUID (uid : List Nat) (w : World) : Option Bool × List Nat × World :=
  match write2 RWDH2_CMD_UID RWDH2_UID_MASK w with
  | (some true, w1) =>
    let (b, uid1, w2) := read2 uid 4 w1
    (some b, uid1, w2)
  | (some false, w1) => (some false, uid, w1)
  | (none, w1) => (none, uid, w1)

/-- The function `RWDH2::getIdentifier`; `fuel` bounds the drain loop of `read(identifier)`. -/
def getIdentifier (identifier : List Nat) (fuel : Nat) (w : World) :
    Option (Bool × List Nat × World) :=
  let (l, w1) := listening0 w
  if l then
    let w2 := write1 RWDH2_CMD_MESSAGE w1
    read1 identifier fuel w2
  else
    some (false, identifier, w1)

/-! ## Behaviour of the simulated device -/

/-- The CTS line reads HIGH at the next `k` reads and LOW at the read after them: the device
starts listening after `k` failed polls. -/
def ListensAfter (w : World) (k : Nat) : Prop :=
  (∀ j, j < k → w.cts (w.ctsReads + j) = true) ∧ w.cts (w.ctsReads + k) = false

/-- The receive buffer is found empty at the next `k` looks at the stream and holds
`r :: rest` at the look after them: the byte `r` becomes available after `k` failed polls. -/
def AnswersAfter (w : World) (k r : Nat) (rest : List Nat) : Prop :=
  (∀ j, j < k → w.rx ++ w.arrive (w.rxObs + j) = []) ∧
    w.rx ++ w.arrive (w.rxObs + k) = r :: rest

/-- The CTS line reads HIGH at every read: the device never listens. -/
def NeverListening (w : World) : Prop := ∀ n, w.cts n = true

/-- The CTS line reads LOW at every read: the device always listens. -/
def AlwaysListening (w : World) : Prop := ∀ n, w.cts n = false

/-- The device answers the next commands promptly, one byte each, with the bytes `acks` in
this order: `Answers arrive obs rx acks` says that a driver whose receive buffer is `rx`
after `obs` looks at the stream finds the first byte of `acks` at the head of the buffer at
its next look, and that after it has read that byte (a second look) the same holds for the
remaining bytes of `acks`. -/
def Answers (arrive : Nat → List Nat) : Nat → List Nat → List Nat → Prop
  | _, _, [] => True
  | obs, rx, a :: acks =>
    ∃ rest, rx ++ arrive obs = a :: rest ∧
      Answers arrive (obs + 2) (rest ++ arrive (obs + 1)) acks

/-- The bytes of the frames `[0x50, start_address + i, data[i]]`, `[0x50, start_address + i + 1,
data[i+1]]`, ... one after the other, the address stored in a `uint8_t`. -/
def progFrames (start_address : Nat) : Nat → List Nat → List Nat
  | _, [] => []
  | i, d :: ds => [0x50, (start_address + i) % 256, d] ++ progFrames start_address (i + 1) ds

/-! ## The poll timer over the unbounded integers -/

/-- The loop of `RWDH2::listening(uint16_t timeout)` with `timer` taken as an unbounded
integer: `listeningLoop` without the reduction modulo 2^16. -/
def listeningLoopUnbounded (timeout : Nat) : Nat → Nat → World → Option (Bool × World)
  | 0, _, _ => none
  | fuel + 1, timer, w =>
    let (high, w1) := digitalRead w
    if high then
      if timeout > 0 then
        if timer < timeout then
          listeningLoopUnbounded timeout fuel (timer + 5) (delay 5 w1)
        else
          some (false, println "RWDH2::listening timeout" w1)
      else
        listeningLoopUnbounded timeout fuel timer (delay 5 w1)
    else
      some (true, w1)

/-- The loop of `RWDH2::available(uint16_t timeout)` with `timer` taken as an unbounded
integer: `availableLoop` without the reduction modulo 2^16. -/
def availableLoopUnbounded (timeout : Nat) : Nat → Nat → World → Option (Bool × World)
  | 0, _, _ => none
  | fuel + 1, timer, w =>
    let (avail, w1) := serialAvailable w
    if !avail then
      if timeout > 0 then
        if timer < timeout then
          availableLoopUnbounded timeout fuel (timer + 5) (delay 5 w1)
        else
          some (false, println "RWDH2::available timeout" w1)
      else
        availableLoopUnbounded timeout fuel timer (delay 5 w1)
    else
      some (true, w1)

/-- The values that the 16-bit variable `timer` of `RWDH2::listening(uint16_t timeout)` holds
at the successive evaluations of the loop condition: `listeningLoop` with the result replaced
by the record of `timer`. -/
def listeningTimers (timeout : Nat) : Nat → Nat → World → List Nat
  | 0, _, _ => []
  | fuel + 1, timer, w =>
    let (high, w1) := digitalRead w
    timer ::
      (if high then
        if timeout > 0 then
          if timer < timeout then
            listeningTimers timeout fuel ((timer + 5) % 65536) (delay 5 w1)
          else
            []
        else
          listeningTimers timeout fuel timer (delay 5 w1)
      else
        [])

/-- The values that the 16-bit variable `timer` of `RWDH2::available(uint16_t timeout)` holds
at the successive evaluations of the loop condition. -/
def availableTimers (timeout : Nat) : Nat → Nat → World → List Nat
  | 0, _, _ => []
  | fuel + 1, timer, w =>
    let (avail, w1) := serialAvailable w
    timer ::
      (if !avail then
        if timeout > 0 then
          if timer < timeout then
            availableTimers timeout fuel ((timer + 5) % 65536) (delay 5 w1)
          else
            []
        else
          availableTimers timeout fuel timer (delay 5 w1)
      else
        [])

/-! ## The pollers -/

theorem listeningLoop_true (timeout : Nat) (ht : timeout ≤ 65535) :
    ∀ (k fuel timer : Nat) (w : World), timer % 5 = 0 →
      (timeout = 0 ∨ timer + 5 * k ≤ timeout + 4) → k < fuel →
      (∀ j, j < k → w.cts (w.ctsReads + j) = true) → w.cts (w.ctsReads + k) = false →
      listeningLoop timeout fuel timer w =
        some (true, { w with ctsReads := w.ctsReads + k + 1, millis := w.millis + 5 * k }) := by
  intro k
  induction k with
  | zero =>
    intro fuel timer w _ _ hf _ hlow
    obtain ⟨f, rfl⟩ : ∃ f, fuel = f + 1 := ⟨fuel - 1, by omega⟩
    simp only [Nat.add_zero] at hlow
    simp [listeningLoop, digitalRead, hlow]
  | succ k ih =>
    intro fuel timer w h5 hb hf hhigh hlow
    obtain ⟨f, rfl⟩ : ∃ f, fuel = f + 1 := ⟨fuel - 1, by omega⟩
    have h0 : w.cts w.ctsReads = true := by simpa using hhigh 0 (by omega)
    have hstep := ih f ((timer + 5) % 65536) (delay 5 (digitalRead w).2)
    rcases Nat.eq_zero_or_pos timeout with hz | hp
    · subst hz
      have hrec := ih f timer (delay 5 (digitalRead w).2) h5 (Or.inl rfl) (by omega)
        (by intro j hj; simpa [delay, digitalRead, Nat.add_assoc, Nat.add_comm 1 j] using hhigh (j + 1) (by omega))
        (by simpa [delay, digitalRead, Nat.add_assoc, Nat.add_comm 1 k] using hlow)
      simp only [listeningLoop, digitalRead, h0] at hrec ⊢
      simp only [if_true, Nat.lt_irrefl, if_false]
      rw [hrec]
      simp [delay]
      constructor <;> omega
    · have hlt : timer < timeout := by omega
      have hmod : (timer + 5) % 65536 = timer + 5 := Nat.mod_eq_of_lt (by omega)
      have hrec := ih f (timer + 5) (delay 5 (digitalRead w).2) (by omega) (Or.inr (by omega)) (by omega)
        (by intro j hj; simpa [delay, digitalRead, Nat.add_assoc, Nat.add_comm 1 j] using hhigh (j + 1) (by omega))
        (by simpa [delay, digitalRead, Nat.add_assoc, Nat.add_comm 1 k] using hlow)
      simp only [listeningLoop, digitalRead, h0] at hrec ⊢
      simp only [if_true, hp, hlt, hmod]
      rw [hrec]
      simp [delay]
      constructor <;> omega

theorem listeningLoop_false (timeout : Nat) (hp : 0 < timeout) (ht : timeout ≤ 65535) :
    ∀ (n fuel timer : Nat) (w : World), timer % 5 = 0 → timer ≤ timeout + 4 →
      n = (timeout + 4 - timer) / 5 → n < fuel →
      (∀ j, j ≤ n → w.cts (w.ctsReads + j) = true) →
      listeningLoop timeout fuel timer w =
        some (false, println "RWDH2::listening timeout"
          { w with ctsReads := w.ctsReads + n + 1, millis := w.millis + 5 * n }) := by
  intro n
  induction n with
  | zero =>
    intro fuel timer w _ _ hn hf hhigh
    obtain ⟨f, rfl⟩ : ∃ f, fuel = f + 1 := ⟨fuel - 1, by omega⟩
    have h0 : w.cts w.ctsReads = true := by simpa using hhigh 0 (by omega)
    have hge : ¬ timer < timeout := by omega
    simp [listeningLoop, digitalRead, h0, hp, hge, println]
  | succ n ih =>
    intro fuel timer w h5 hb hn hf hhigh
    obtain ⟨f, rfl⟩ : ∃ f, fuel = f + 1 := ⟨fuel - 1, by omega⟩
    have h0 : w.cts w.ctsReads = true := by simpa using hhigh 0 (by omega)
    have hlt : timer < timeout := by omega
    have hmod : (timer + 5) % 65536 = timer + 5 := Nat.mod_eq_of_lt (by omega)
    have hrec := ih f (timer + 5) (delay 5 (digitalRead w).2) (by omega) (by omega) (by omega)
      (by omega)
      (by intro j hj; simpa [delay, digitalRead, Nat.add_assoc, Nat.add_comm 1 j] using hhigh (j + 1) (by omega))
    simp only [listeningLoop, digitalRead, h0] at hrec ⊢
    simp only [if_true, hp, hlt, hmod]
    rw [hrec]
    simp [delay, println]
    constructor <;> omega

theorem listeningLoop_terminates (timeout : Nat) (hp : 0 < timeout) (ht : timeout ≤ 65535) :
    ∀ (fuel timer : Nat) (w : World), timer % 5 = 0 → timer ≤ timeout + 4 →
      (timeout + 4 - timer) / 5 < fuel →
      (listeningLoop timeout fuel timer w).isSome = true := by
  intro fuel
  induction fuel with
  | zero => intro timer w _ _ hf; omega
  | succ f ih =>
    intro timer w h5 hb hf
    simp only [listeningLoop]
    cases hc : (digitalRead w).1
    · simp
    · by_cases hlt : timer < timeout
      · have hmod : (timer + 5) % 65536 = timer + 5 := Nat.mod_eq_of_lt (by omega)
        simp only [if_true, hp, hlt, hmod]
        exact ih _ _ (by omega) (by omega) (by omega)
      · simp [hp, hlt]

theorem listening1_default_isSome (w : World) :
    (listening1 RWDH2_DEFAULT_TIMEOUT (pollFuel RWDH2_DEFAULT_TIMEOUT) w).isSome = true :=
  listeningLoop_terminates 1000 (by decide) (by decide) _ 0 w (by decide) (by decide) (by decide)

theorem availableLoop_true (timeout : Nat) (ht : timeout ≤ 65535) :
    ∀ (k fuel timer : Nat) (w : World) (r : Nat) (rest : List Nat), timer % 5 = 0 →
      (timeout = 0 ∨ timer + 5 * k ≤ timeout + 4) → k < fuel →
      (∀ j, j < k → w.rx ++ w.arrive (w.rxObs + j) = []) →
      w.rx ++ w.arrive (w.rxObs + k) = r :: rest →
      availableLoop timeout fuel timer w =
        some (true, { w with rx := r :: rest, rxObs := w.rxObs + k + 1,
                             millis := w.millis + 5 * k }) := by
  intro k
  induction k with
  | zero =>
    intro fuel timer w r rest _ _ hf _ hnow
    obtain ⟨f, rfl⟩ : ∃ f, fuel = f + 1 := ⟨fuel - 1, by omega⟩
    simp only [Nat.add_zero] at hnow
    simp [availableLoop, serialAvailable, hnow]
  | succ k ih =>
    intro fuel timer w r rest h5 hb hf hempty hnow
    obtain ⟨f, rfl⟩ : ∃ f, fuel = f + 1 := ⟨fuel - 1, by omega⟩
    have h0 : w.rx ++ w.arrive w.rxObs = [] := by simpa using hempty 0 (by omega)
    have hrx : w.rx = [] := (List.append_eq_nil.mp h0).1
    have har : w.arrive w.rxObs = [] := (List.append_eq_nil.mp h0).2
    have hshift : ∀ j, w.rxObs + 1 + j = w.rxObs + (j + 1) := by intro j; omega
    have hE : ∀ j, j < k →
        (delay 5 (serialAvailable w).2).rx ++
          (delay 5 (serialAvailable w).2).arrive ((delay 5 (serialAvailable w).2).rxObs + j) = [] := by
      intro j hj
      have := hempty (j + 1) (by omega)
      simpa [delay, serialAvailable, har, hrx, hshift] using this
    have hN : (delay 5 (serialAvailable w).2).rx ++
          (delay 5 (serialAvailable w).2).arrive ((delay 5 (serialAvailable w).2).rxObs + k) =
          r :: rest := by
      simpa [delay, serialAvailable, har, hrx, hshift] using hnow
    rcases Nat.eq_zero_or_pos timeout with hz | hp
    · subst hz
      have hrec := ih f timer (delay 5 (serialAvailable w).2) r rest h5 (Or.inl rfl) (by omega) hE hN
      simp only [availableLoop, serialAvailable, h0] at hrec ⊢
      simp only [List.isEmpty_nil, Bool.not_true, Bool.not_false, if_true, Nat.lt_irrefl, if_false]
      rw [hrec]
      simp [delay]
      constructor <;> omega
    · have hlt : timer < timeout := by omega
      have hmod : (timer + 5) % 65536 = timer + 5 := Nat.mod_eq_of_lt (by omega)
      have hrec := ih f (timer + 5) (delay 5 (serialAvailable w).2) r rest (by omega)
        (Or.inr (by omega)) (by omega) hE hN
      simp only [availableLoop, serialAvailable, h0] at hrec ⊢
      simp only [List.isEmpty_nil, Bool.not_true, Bool.not_false, if_true, hp, hlt, hmod]
      rw [hrec]
      simp [delay]
      constructor <;> omega

theorem availableLoop_false (timeout : Nat) (hp : 0 < timeout) (ht : timeout ≤ 65535) :
    ∀ (n fuel timer : Nat) (w : World), timer % 5 = 0 → timer ≤ timeout + 4 →
      n = (timeout + 4 - timer) / 5 → n < fuel →
      (∀ j, j ≤ n → w.rx ++ w.arrive (w.rxObs + j) = []) →
      availableLoop timeout fuel timer w =
        some (false, println "RWDH2::available timeout"
          { w with rx := [], rxObs := w.rxObs + n + 1, millis := w.millis + 5 * n }) := by
  intro n
  induction n with
  | zero =>
    intro fuel timer w _ _ hn hf hempty
    obtain ⟨f, rfl⟩ : ∃ f, fuel = f + 1 := ⟨fuel - 1, by omega⟩
    have h0 : w.rx ++ w.arrive w.rxObs = [] := by simpa using hempty 0 (by omega)
    have hge : ¬ timer < timeout := by omega
    simp [availableLoop, serialAvailable, h0, hp, hge, println]
  | succ n ih =>
    intro fuel timer w h5 hb hn hf hempty
    obtain ⟨f, rfl⟩ : ∃ f, fuel = f + 1 := ⟨fuel - 1, by omega⟩
    have h0 : w.rx ++ w.arrive w.rxObs = [] := by simpa using hempty 0 (by omega)
    have hrx : w.rx = [] := (List.append_eq_nil.mp h0).1
    have har : w.arrive w.rxObs = [] := (List.append_eq_nil.mp h0).2
    have hshift : ∀ j, w.rxObs + 1 + j = w.rxObs + (j + 1) := by intro j; omega
    have hE : ∀ j, j ≤ n →
        (delay 5 (serialAvailable w).2).rx ++
          (delay 5 (serialAvailable w).2).arrive ((delay 5 (serialAvailable w).2).rxObs + j) = [] := by
      intro j hj
      have := hempty (j + 1) (by omega)
      simpa [delay, serialAvailable, har, hrx, hshift] using this
    have hlt : timer < timeout := by omega
    have hmod : (timer + 5) % 65536 = timer + 5 := Nat.mod_eq_of_lt (by omega)
    have hrec := ih f (timer + 5) (delay 5 (serialAvailable w).2) (by omega) (by omega) (by omega)
      (by omega) hE
    simp only [availableLoop, serialAvailable, h0] at hrec ⊢
    simp only [List.isEmpty_nil, Bool.not_true, Bool.not_false, if_true, hp, hlt, hmod]
    rw [hrec]
    simp [delay, println]
    constructor <;> omega

theorem availableLoop_terminates (timeout : Nat) (hp : 0 < timeout) (ht : timeout ≤ 65535) :
    ∀ (fuel timer : Nat) (w : World), timer % 5 = 0 → timer ≤ timeout + 4 →
      (timeout + 4 - timer) / 5 < fuel →
      (availableLoop timeout fuel timer w).isSome = true := by
  intro fuel
  induction fuel with
  | zero => intro timer w _ _ hf; omega
  | succ f ih =>
    intro timer w h5 hb hf
    simp only [availableLoop]
    cases hc : (serialAvailable w).1
    · by_cases hlt : timer < timeout
      · have hmod : (timer + 5) % 65536 = timer + 5 := Nat.mod_eq_of_lt (by omega)
        simp only [Bool.not_false, if_true, hp, hlt, hmod]
        exact ih _ _ (by omega) (by omega) (by omega)
      · simp [hp, hlt]
    · simp

theorem available1_default_isSome (w : World) :
    (available1 RWDH2_DEFAULT_TIMEOUT (pollFuel RWDH2_DEFAULT_TIMEOUT) w).isSome = true :=
  availableLoop_terminates 1000 (by decide) (by decide) _ 0 w (by decide) (by decide) (by decide)

theorem listeningLoop_fuel_mono (timeout : Nat) :
    ∀ (fuel timer : Nat) (w : World) (r : Bool × World),
      listeningLoop timeout fuel timer w = some r →
      listeningLoop timeout (fuel + 1) timer w = some r := by
  intro fuel
  induction fuel with
  | zero => intro timer w r h; simp [listeningLoop] at h
  | succ f ih =>
    intro timer w r h
    rw [listeningLoop] at h ⊢
    cases hc : (digitalRead w).1
    · simpa [hc] using h
    · simp only [hc, if_true] at h ⊢
      by_cases hp : timeout > 0
      · by_cases hlt : timer < timeout
        · simp only [hp, hlt, if_true] at h ⊢
          exact ih _ _ _ h
        · simpa [hp, hlt] using h
      · simp only [hp, if_false] at h ⊢
        exact ih _ _ _ h

theorem availableLoop_fuel_mono (timeout : Nat) :
    ∀ (fuel timer : Nat) (w : World) (r : Bool × World),
      availableLoop timeout fuel timer w = some r →
      availableLoop timeout (fuel + 1) timer w = some r := by
  intro fuel
  induction fuel with
  | zero => intro timer w r h; simp [availableLoop] at h
  | succ f ih =>
    intro timer w r h
    rw [availableLoop] at h ⊢
    cases hc : (serialAvailable w).1
    · simp only [hc, Bool.not_false, if_true] at h ⊢
      by_cases hp : timeout > 0
      · by_cases hlt : timer < timeout
        · simp only [hp, hlt, if_true] at h ⊢
          exact ih _ _ _ h
        · simpa [hp, hlt] using h
      · simp only [hp, if_false] at h ⊢
        exact ih _ _ _ h
    · simpa [hc] using h

theorem listening0_true (w : World) (k : Nat) (hk : k ≤ 200) (h : ListensAfter w k) :
    listening0 w =
      (true, { w with ctsReads := w.ctsReads + k + 1, millis := w.millis + 5 * k }) := by
  have := listeningLoop_true 1000 (by decide) k (pollFuel 1000) 0 w (by decide)
    (Or.inr (by omega)) (by simp [pollFuel]; omega) h.1 h.2
  simp only [listening0, listening1, RWDH2_DEFAULT_TIMEOUT, this]

theorem listening0_false (w : World) (h : ∀ j, j ≤ 200 → w.cts (w.ctsReads + j) = true) :
    listening0 w =
      (false, println "RWDH2::listening timeout"
        { w with ctsReads := w.ctsReads + 201, millis := w.millis + 1000 }) := by
  have := listeningLoop_false 1000 (by decide) (by decide) 200 (pollFuel 1000) 0 w (by decide)
    (by decide) (by decide) (by decide) h
  simp only [listening0, listening1, RWDH2_DEFAULT_TIMEOUT, this]

theorem available0_true (w : World) (k r : Nat) (rest : List Nat) (hk : k ≤ 200)
    (h : AnswersAfter w k r rest) :
    available0 w =
      (true, { w with rx := r :: rest, rxObs := w.rxObs + k + 1,
                      millis := w.millis + 5 * k }) := by
  have := availableLoop_true 1000 (by decide) k (pollFuel 1000) 0 w r rest (by decide)
    (Or.inr (by omega)) (by simp [pollFuel]; omega) h.1 h.2
  simp only [available0, available1, RWDH2_DEFAULT_TIMEOUT, this]

theorem available0_false (w : World)
    (h : ∀ j, j ≤ 200 → w.rx ++ w.arrive (w.rxObs + j) = []) :
    available0 w =
      (false, println "RWDH2::available timeout"
        { w with rx := [], rxObs := w.rxObs + 201, millis := w.millis + 1000 }) := by
  have := availableLoop_false 1000 (by decide) (by decide) 200 (pollFuel 1000) 0 w (by decide)
    (by decide) (by decide) (by decide) h
  simp only [available0, available1, RWDH2_DEFAULT_TIMEOUT, this]

theorem write3Loop_tx (cmd : List Nat) (w : World) :
    write3Loop cmd w = { w with tx := w.tx ++ cmd } := by
  induction cmd generalizing w with
  | nil => simp [write3Loop]
  | cons c cs ih => simp [write3Loop, ih, write1, serialWrite]

/-- One complete command exchange: the state and the value after `write3`. -/
theorem write3_exchange (cmd : List Nat) (mask : Nat) (w : World) (k1 k2 r : Nat)
    (rest : List Nat) (hk1 : k1 ≤ 200) (hk2 : k2 ≤ 200) (hl : ListensAfter w k1)
    (ha : AnswersAfter w k2 r rest) (hr : r < 256) :
    write3 cmd mask w =
      (some ((r &&& mask) == (RWDH2_OKAY &&& mask)),
        { w with ctsReads := w.ctsReads + k1 + 1,
                 rxObs := w.rxObs + k2 + 2,
                 rx := rest ++ w.arrive (w.rxObs + k2 + 1),
                 tx := w.tx ++ cmd,
                 millis := w.millis + 5 * k1 + 5 * k2 + 1,
                 last_ack := r }) := by
  have hmod : r % 256 = r := Nat.mod_eq_of_lt hr
  simp only [write3, listening0_true w k1 hk1 hl, if_true, write3Loop_tx]
  rw [available0_true _ k2 r rest hk2 (by simpa [AnswersAfter] using ha)]
  simp [read0, serialRead, delay, hmod]

theorem write3_deaf (cmd : List Nat) (mask : Nat) (w : World)
    (h : ∀ j, j ≤ 200 → w.cts (w.ctsReads + j) = true) :
    write3 cmd mask w =
      (none, println "RWDH2::listening timeout"
        { w with ctsReads := w.ctsReads + 201, millis := w.millis + 1000 }) := by
  simp [write3, listening0_false w h]

theorem write3_result (cmd : List Nat) (m : Nat) (w : World) (k1 k2 r : Nat)
    (rest : List Nat) (hk1 : k1 ≤ 200) (hk2 : k2 ≤ 200) (hl : ListensAfter w k1)
    (ha : AnswersAfter w k2 r rest) (hr : r < 256) :
    (write3 cmd m w).1 = some (decide (r &&& m = 0xD6 &&& m)) := by
  rw [write3_exchange cmd m w k1 k2 r rest hk1 hk2 hl ha hr]
  simp only [RWDH2_OKAY]
  congr 1

/-- C1: when the device starts listening within the timeout and a response byte `r` becomes
available within the timeout, `write(cmd[], m, size)` returns true exactly when
`(r & m) == (0xD6 & m)` and false exactly when the masked bits differ; two responses that
agree on the masked bits give the same result. -/
theorem write3_masked_ack (cmd : List Nat) (m r : Nat) (w : World) (k1 k2 : Nat)
    (rest : List Nat) (hk1 : k1 ≤ 200) (hk2 : k2 ≤ 200) (hl : ListensAfter w k1)
    (ha : AnswersAfter w k2 r rest) (hr : r < 256) :
    ((write3 cmd m w).1 = some true ↔ r &&& m = 0xD6 &&& m) ∧
    ((write3 cmd m w).1 = some false ↔ r &&& m ≠ 0xD6 &&& m) ∧
    (∀ (w2 : World) (j1 j2 r2 : Nat) (rest2 : List Nat), j1 ≤ 200 → j2 ≤ 200 →
      ListensAfter w2 j1 → AnswersAfter w2 j2 r2 rest2 → r2 < 256 →
      r2 &&& m = r &&& m → (write3 cmd m w2).1 = (write3 cmd m w).1) := by
  have h := write3_result cmd m w k1 k2 r rest hk1 hk2 hl ha hr
  refine ⟨?_, ?_, ?_⟩
  · rw [h]; simp
  · rw [h]; simp
  · intro w2 j1 j2 r2 rest2 hj1 hj2 hl2 ha2 hr2 heq
    rw [h, write3_result cmd m w2 j1 j2 r2 rest2 hj1 hj2 hl2 ha2 hr2, heq]

theorem listensAfter_zero (w : World) (h : w.cts w.ctsReads = false) : ListensAfter w 0 :=
  ⟨fun _ hj => absurd hj (Nat.not_lt_zero _), h⟩

theorem answersAfter_zero (w : World) (r : Nat) (rest : List Nat)
    (h : w.rx ++ w.arrive w.rxObs = r :: rest) : AnswersAfter w 0 r rest :=
  ⟨fun _ hj => absurd hj (Nat.not_lt_zero _), h⟩

/-- Witness for C1 with mask 0x3E: the responses 0xD6 and 0xD7 give true, 0xC6 gives false. -/
theorem write3_masked_ack_witness :
    (write3 [0x52, 0x04] 0x3E (init (fun _ => false) (fun _ => []) [0xD6])).1 = some true ∧
    (write3 [0x52, 0x04] 0x3E (init (fun _ => false) (fun _ => []) [0xD7])).1 = some true ∧
    (write3 [0x52, 0x04] 0x3E (init (fun _ => false) (fun _ => []) [0xC6])).1 = some false :=
  ⟨(write3_masked_ack [0x52, 0x04] 0x3E 0xD6 (init (fun _ => false) (fun _ => []) [0xD6]) 0 0 []
      (by decide) (by decide) (listensAfter_zero _ rfl) (answersAfter_zero _ _ _ rfl)
      (by decide)).1.mpr (by decide),
   (write3_masked_ack [0x52, 0x04] 0x3E 0xD7 (init (fun _ => false) (fun _ => []) [0xD7]) 0 0 []
      (by decide) (by decide) (listensAfter_zero _ rfl) (answersAfter_zero _ _ _ rfl)
      (by decide)).1.mpr (by decide),
   (write3_masked_ack [0x52, 0x04] 0x3E 0xC6 (init (fun _ => false) (fun _ => []) [0xC6]) 0 0 []
      (by decide) (by decide) (listensAfter_zero _ rfl) (answersAfter_zero _ _ _ rfl)
      (by decide)).2.1.mpr (by decide)⟩

/-- C2: on a device that starts listening within the timeout and answers with the canonical
okay byte 0xD6, `writeTag(p, d)` returns true and appends exactly the six bytes
`0x57, p, d[0], d[1], d[2], d[3]` to the bytes sent on the transport. -/
theorem writeTag_okay (p d0 d1 d2 d3 : Nat) (w : World) (k1 k2 : Nat) (rest : List Nat)
    (_hp : p ≤ 7) (hk1 : k1 ≤ 200) (hk2 : k2 ≤ 200) (hl : ListensAfter w k1)
    (ha : AnswersAfter w k2 0xD6 rest) :
    (writeTag p [d0, d1, d2, d3] w).1 = some true ∧
    (writeTag p [d0, d1, d2, d3] w).2.tx = w.tx ++ [0x57, p, d0, d1, d2, d3] := by
  simp only [writeTag]
  rw [write3_exchange _ _ w k1 k2 0xD6 rest hk1 hk2 hl ha (by decide)]
  simp [RWDH2_CMD_WRITE, RWDH2_OKAY, RWDH2_WRITE_MASK]

/-- Witness for C2: page 5 and payload `1, 2, 3, 4` on a fresh driver whose device listens and
has answered 0xD6. -/
theorem writeTag_okay_witness :
    (writeTag 5 [1, 2, 3, 4] (init (fun _ => false) (fun _ => []) [0xD6])).1 = some true ∧
    (writeTag 5 [1, 2, 3, 4] (init (fun _ => false) (fun _ => []) [0xD6])).2.tx =
      [0x57, 5, 1, 2, 3, 4] :=
  writeTag_okay 5 1 2 3 4 (init (fun _ => false) (fun _ => []) [0xD6]) 0 0 [] (by decide)
    (by decide) (by decide) (listensAfter_zero _ rfl) (answersAfter_zero _ _ _ rfl)

/-! ## EEPROM programming -/

theorem answers_preloaded (obs : Nat) (acks rest : List Nat) :
    Answers (fun _ => []) obs (acks ++ rest) acks := by
  induction acks generalizing obs with
  | nil => simp [Answers]
  | cons a acks ih => exact ⟨acks ++ rest, by simp, by simpa using ih (obs + 2)⟩

theorem answers_prefix (arrive : Nat → List Nat) (acks more : List Nat) :
    ∀ (obs : Nat) (rx : List Nat), Answers arrive obs rx (acks ++ more) →
      Answers arrive obs rx acks := by
  induction acks with
  | nil => intro obs rx _; simp [Answers]
  | cons a acks ih =>
    intro obs rx h
    obtain ⟨rest, h1, h2⟩ := h
    exact ⟨rest, h1, ih _ _ h2⟩

theorem alwaysListening_listensAfter (w : World) (h : AlwaysListening w) : ListensAfter w 0 :=
  listensAfter_zero w (h _)

/-- One program command that is answered promptly with `a`. -/
theorem write3_prompt (cmd : List Nat) (mask : Nat) (w : World) (a : Nat) (rest : List Nat)
    (hl : AlwaysListening w) (hrx : w.rx ++ w.arrive w.rxObs = a :: rest) (ha : a < 256) :
    write3 cmd mask w =
      (some ((a &&& mask) == (RWDH2_OKAY &&& mask)),
        { w with ctsReads := w.ctsReads + 1,
                 rxObs := w.rxObs + 2,
                 rx := rest ++ w.arrive (w.rxObs + 1),
                 tx := w.tx ++ cmd,
                 millis := w.millis + 1,
                 last_ack := a }) := by
  have := write3_exchange cmd mask w 0 0 a rest (by decide) (by decide)
    (alwaysListening_listensAfter w hl) (answersAfter_zero w a rest hrx) ha
  simpa using this

theorem progMask_okay (a : Nat) :
    ((a &&& RWDH2_PROGEEPROM_MASK) == (RWDH2_OKAY &&& RWDH2_PROGEEPROM_MASK)) =
      decide (a % 2 = 0) := by
  simp only [RWDH2_PROGEEPROM_MASK, RWDH2_OKAY, Nat.and_one_is_mod]
  rfl

theorem writeEEPROM3Loop_ok (start : Nat) :
    ∀ (data : List Nat) (i : Nat) (w : World) (acks more : List Nat), AlwaysListening w →
      acks.length = data.length → (∀ a, a ∈ acks → a < 256 ∧ a % 2 = 0) →
      Answers w.arrive w.rxObs w.rx (acks ++ more) →
      ∃ w1, writeEEPROM3Loop start i data w = (some true, w1) ∧
        w1.tx = w.tx ++ progFrames start i data ∧ w1.cts = w.cts ∧ w1.arrive = w.arrive ∧
        Answers w1.arrive w1.rxObs w1.rx more := by
  intro data
  induction data with
  | nil =>
    intro i w acks more _ hlen _ hans
    have : acks = [] := List.length_eq_zero.mp (by simpa using hlen)
    subst this
    exact ⟨w, by simp [writeEEPROM3Loop], by simp [progFrames], rfl, rfl, by simpa using hans⟩
  | cons d ds ih =>
    intro i w acks more hl hlen hgood hans
    cases acks with
    | nil => simp at hlen
    | cons a acks =>
      obtain ⟨rest, h1, h2⟩ := hans
      have ha := hgood a (by simp)
      have hstep := write3_prompt [RWDH2_CMD_PROGEEPROM, (start + i) % 256, d]
        RWDH2_PROGEEPROM_MASK w a rest hl h1 ha.1
      rw [progMask_okay, decide_eq_true ha.2] at hstep
      obtain ⟨w1, e1, e2, e3, e4, e5⟩ := ih (i + 1)
        { w with ctsReads := w.ctsReads + 1, rxObs := w.rxObs + 2,
                 rx := rest ++ w.arrive (w.rxObs + 1),
                 tx := w.tx ++ [RWDH2_CMD_PROGEEPROM, (start + i) % 256, d],
                 millis := w.millis + 1, last_ack := a }
        acks more hl (by simpa using hlen) (fun b hb => hgood b (by simp [hb])) h2
      refine ⟨w1, ?_, ?_, e3, e4, e5⟩
      · simp only [writeEEPROM3Loop, hstep]
        exact e1
      · rw [e2]
        simp [progFrames, RWDH2_CMD_PROGEEPROM]

theorem writeEEPROM3Loop_fail (start : Nat) :
    ∀ (good data : List Nat) (i : Nat) (w : World) (bad : Nat), AlwaysListening w →
      good.length < data.length → (∀ a, a ∈ good → a < 256 ∧ a % 2 = 0) →
      bad < 256 → bad % 2 = 1 →
      Answers w.arrive w.rxObs w.rx (good ++ [bad]) →
      ∃ w1, writeEEPROM3Loop start i data w = (some false, w1) ∧
        w1.tx = w.tx ++ progFrames start i (data.take (good.length + 1)) ∧
        w1.last_ack = bad := by
  intro good
  induction good with
  | nil =>
    intro data i w bad hl hlen _ hb hodd hans
    cases data with
    | nil => simp at hlen
    | cons d ds =>
      obtain ⟨rest, h1, _⟩ := hans
      have hstep := write3_prompt [RWDH2_CMD_PROGEEPROM, (start + i) % 256, d]
        RWDH2_PROGEEPROM_MASK w bad rest hl h1 hb
      rw [progMask_okay, decide_eq_false (by omega)] at hstep
      refine ⟨{ w with ctsReads := w.ctsReads + 1, rxObs := w.rxObs + 2,
                       rx := rest ++ w.arrive (w.rxObs + 1),
                       tx := w.tx ++ [RWDH2_CMD_PROGEEPROM, (start + i) % 256, d],
                       millis := w.millis + 1, last_ack := bad }, ?_, ?_, rfl⟩
      · simp only [writeEEPROM3Loop, hstep]
      · simp [progFrames, RWDH2_CMD_PROGEEPROM]
  | cons a good ih =>
    intro data i w bad hl hlen hgood hb hodd hans
    cases data with
    | nil => simp at hlen
    | cons d ds =>
      obtain ⟨rest, h1, h2⟩ := hans
      have ha := hgood a (by simp)
      have hstep := write3_prompt [RWDH2_CMD_PROGEEPROM, (start + i) % 256, d]
        RWDH2_PROGEEPROM_MASK w a rest hl h1 ha.1
      rw [progMask_okay, decide_eq_true ha.2] at hstep
      obtain ⟨w1, e1, e2, e3⟩ := ih ds (i + 1)
        { w with ctsReads := w.ctsReads + 1, rxObs := w.rxObs + 2,
                 rx := rest ++ w.arrive (w.rxObs + 1),
                 tx := w.tx ++ [RWDH2_CMD_PROGEEPROM, (start + i) % 256, d],
                 millis := w.millis + 1, last_ack := a }
        bad hl (by simpa using hlen) (fun b hb => hgood b (by simp [hb])) hb hodd h2
      refine ⟨w1, ?_, ?_, e3⟩
      · simp only [writeEEPROM3Loop, hstep]
        exact e1
      · rw [e2]
        simp [progFrames, RWDH2_CMD_PROGEEPROM]

theorem writeEEPROM3_ok (start : Nat) (data : List Nat) (w : World) (acks more : List Nat)
    (hl : AlwaysListening w) (hlen : acks.length = data.length)
    (hgood : ∀ a, a ∈ acks → a < 256 ∧ a % 2 = 0)
    (hans : Answers w.arrive w.rxObs w.rx (acks ++ more)) :
    ∃ w1, writeEEPROM3 start data w = (some true, w1) ∧
      w1.tx = w.tx ++ progFrames start 0 data ∧ w1.cts = w.cts ∧ w1.arrive = w.arrive ∧
      Answers w1.arrive w1.rxObs w1.rx more := by
  have h0 := listening0_true w 0 (by decide) (alwaysListening_listensAfter w hl)
  obtain ⟨w1, e1, e2, e3, e4, e5⟩ := writeEEPROM3Loop_ok start data 0
    { w with ctsReads := w.ctsReads + 0 + 1, millis := w.millis + 5 * 0 } acks more hl hlen
    hgood hans
  exact ⟨w1, by simp only [writeEEPROM3, h0, if_true]; exact e1, e2, e3, e4, e5⟩

theorem writeEEPROM3_fail (start : Nat) (good data : List Nat) (w : World) (bad : Nat)
    (hl : AlwaysListening w) (hlen : good.length < data.length)
    (hgood : ∀ a, a ∈ good → a < 256 ∧ a % 2 = 0) (hb : bad < 256) (hodd : bad % 2 = 1)
    (hans : Answers w.arrive w.rxObs w.rx (good ++ [bad])) :
    ∃ w1, writeEEPROM3 start data w = (some false, w1) ∧
      w1.tx = w.tx ++ progFrames start 0 (data.take (good.length + 1)) ∧
      w1.last_ack = bad := by
  have h0 := listening0_true w 0 (by decide) (alwaysListening_listensAfter w hl)
  obtain ⟨w1, e1, e2, e3⟩ := writeEEPROM3Loop_fail start good data 0
    { w with ctsReads := w.ctsReads + 0 + 1, millis := w.millis + 5 * 0 } bad hl hlen
    hgood hb hodd hans
  exact ⟨w1, by simp only [writeEEPROM3, h0, if_true]; exact e1, e2, e3⟩

theorem bit0_okay (a : Nat) : a &&& 1 = 0xD6 &&& 1 ↔ a % 2 = 0 := by
  rw [Nat.and_one_is_mod, Nat.and_one_is_mod]

/-- C3: on a device that is listening and answers `r` within the timeout, the single-byte
`writeEEPROM(a, v)` appends exactly the three bytes `0x50, a, v` to the bytes sent and
`getLastAck()` returns `r` afterwards, whether the call returned true (bit 0 of `r` clear) or
false. -/
theorem writeEEPROM2_frame_ack (a v r : Nat) (w : World) (k : Nat) (rest : List Nat)
    (ha : a ≤ 255) (hl : AlwaysListening w) (hk : k ≤ 200) (hans : AnswersAfter w k r rest)
    (hr : r < 256) :
    (writeEEPROM2 a v w).2.tx = w.tx ++ [0x50, a, v] ∧
    getLastAck (writeEEPROM2 a v w).2 = r ∧
    (writeEEPROM2 a v w).1 = some (decide (r &&& 1 = 0xD6 &&& 1)) := by
  have h0 := listening0_true w 0 (by decide) (alwaysListening_listensAfter w hl)
  have ha1 : a < 256 := by omega
  have hmod : (a + 0) % 256 = a := Nat.mod_eq_of_lt (by omega)
  have hstep := write3_exchange [RWDH2_CMD_PROGEEPROM, (a + 0) % 256, v] RWDH2_PROGEEPROM_MASK
    { w with ctsReads := w.ctsReads + 0 + 1, millis := w.millis + 5 * 0 } 0 k r rest
    (by decide) hk (listensAfter_zero _ (hl _)) hans hr
  rw [progMask_okay] at hstep
  simp only [writeEEPROM2, writeEEPROM3, h0, if_true, writeEEPROM3Loop, hstep]
  by_cases hb : r % 2 = 0
  · simp [hb, bit0_okay, writeEEPROM3Loop, getLastAck, ha1, RWDH2_CMD_PROGEEPROM]
  · simp [hb, bit0_okay, getLastAck, ha1, RWDH2_CMD_PROGEEPROM]

/-- Witness for C3: address 200, value 7, and a device that answers 0x33 (a failing
acknowledgment) to a fresh driver. -/
theorem writeEEPROM2_frame_ack_witness :
    (writeEEPROM2 200 7 (init (fun _ => false) (fun _ => []) [0x33])).2.tx = [0x50, 200, 7] ∧
    getLastAck (writeEEPROM2 200 7 (init (fun _ => false) (fun _ => []) [0x33])).2 = 0x33 ∧
    (writeEEPROM2 200 7 (init (fun _ => false) (fun _ => []) [0x33])).1 = some false :=
  writeEEPROM2_frame_ack 200 7 0x33 (init (fun _ => false) (fun _ => []) [0x33]) 0 []
    (by decide) (fun _ => rfl) (by decide) (answersAfter_zero _ _ _ rfl) (by decide)

/-- C9: on a device that is always listening and acknowledges the four program commands
successfully, `enableUID()` returns true and appends exactly the frames `[0x50,0x0C,0xFF]`,
`[0x50,0x0D,0xFF]`, `[0x50,0x0E,0xFF]`, `[0x50,0x0F,0xFF]`, in this order, to the bytes sent. -/
theorem enableUID_frames (w : World) (acks : List Nat) (hl : AlwaysListening w)
    (hlen : acks.length = 4) (hgood : ∀ a, a ∈ acks → a < 256 ∧ a &&& 1 = 0xD6 &&& 1)
    (hans : Answers w.arrive w.rxObs w.rx acks) :
    (enableUID w).1 = some true ∧
    (enableUID w).2.tx = w.tx ++
      [0x50, 0x0C, 0xFF, 0x50, 0x0D, 0xFF, 0x50, 0x0E, 0xFF, 0x50, 0x0F, 0xFF] := by
  obtain ⟨w1, e1, e2, _⟩ := writeEEPROM3_ok 0xC [0xFF, 0xFF, 0xFF, 0xFF] w acks [] hl
    (by simpa using hlen) (fun a h => ⟨(hgood a h).1, (bit0_okay a).mp (hgood a h).2⟩)
    (by simpa using hans)
  simp only [enableUID, e1, e2]
  simp [progFrames]

/-- Witness for C9: a fresh driver whose device always listens and has queued four 0xD6
acknowledgments. -/
theorem enableUID_frames_witness :
    (enableUID (init (fun _ => false) (fun _ => []) [0xD6, 0xD6, 0xD6, 0xD6])).1 = some true ∧
    (enableUID (init (fun _ => false) (fun _ => []) [0xD6, 0xD6, 0xD6, 0xD6])).2.tx =
      [0x50, 0x0C, 0xFF, 0x50, 0x0D, 0xFF, 0x50, 0x0E, 0xFF, 0x50, 0x0F, 0xFF] :=
  enableUID_frames (init (fun _ => false) (fun _ => []) [0xD6, 0xD6, 0xD6, 0xD6])
    [0xD6, 0xD6, 0xD6, 0xD6] (fun _ => rfl) rfl (by decide)
    (answers_preloaded 0 [0xD6, 0xD6, 0xD6, 0xD6] [])

/-! ## Clearing the authorisation list -/

theorem progFrames_slot (page : Nat) (hp : page < 60) :
    progFrames ((12 + 4 * page) % 256) 0 [0x0, 0x0, 0x0, 0x0] =
      (List.range 4).flatMap (fun i => [0x50, 12 + 4 * page + i, 0x00]) := by
  have h0 : (12 + 4 * page) % 256 = 12 + 4 * page := Nat.mod_eq_of_lt (by omega)
  have h1 : (12 + 4 * page + 1) % 256 = 12 + 4 * page + 1 := Nat.mod_eq_of_lt (by omega)
  have h2 : (12 + 4 * page + 2) % 256 = 12 + 4 * page + 2 := Nat.mod_eq_of_lt (by omega)
  have h3 : (12 + 4 * page + 3) % 256 = 12 + 4 * page + 3 := Nat.mod_eq_of_lt (by omega)
  simp [progFrames, List.range_succ, List.flatMap, h0, h1, h2, h3]

theorem progFrames_slot_partial (page j : Nat) (hp : page < 60) (hj : j < 4) :
    progFrames ((12 + 4 * page) % 256) 0 ([0x0, 0x0, 0x0, 0x0].take (j + 1)) =
      (List.range (j + 1)).flatMap (fun i => [0x50, 12 + 4 * page + i, 0x00]) := by
  have h0 : (12 + 4 * page) % 256 = 12 + 4 * page := Nat.mod_eq_of_lt (by omega)
  have h1 : (12 + 4 * page + 1) % 256 = 12 + 4 * page + 1 := Nat.mod_eq_of_lt (by omega)
  have h2 : (12 + 4 * page + 2) % 256 = 12 + 4 * page + 2 := Nat.mod_eq_of_lt (by omega)
  have h3 : (12 + 4 * page + 3) % 256 = 12 + 4 * page + 3 := Nat.mod_eq_of_lt (by omega)
  interval_cases j <;> simp [progFrames, List.range_succ, List.flatMap, h0, h1, h2, h3]

theorem slots_shift (f : Nat → List Nat) (page n : Nat) :
    (List.range (n + 1)).flatMap (fun k => f (page + k)) =
      f page ++ (List.range n).flatMap (fun k => f (page + 1 + k)) := by
  rw [List.range_succ_eq_map, List.flatMap_cons, List.flatMap_map]
  simp [Nat.succ_eq_add_one, Nat.add_assoc, Nat.add_comm 1]

theorem slots_length (n : Nat) (f : Nat → List Nat) (hf : ∀ k, (f k).length = 12) :
    ((List.range n).flatMap f).length = 3 * (4 * n) := by
  induction n with
  | zero => simp
  | succ n ih =>
    rw [List.range_succ, List.flatMap_append, List.length_append, ih]
    simp [hf]
    omega

theorem deauthoriseAllTagsLoop_ok :
    ∀ (n page : Nat) (w : World) (acks more : List Nat), AlwaysListening w → page + n ≤ 60 →
      acks.length = 4 * n → (∀ a, a ∈ acks → a < 256 ∧ a % 2 = 0) →
      Answers w.arrive w.rxObs w.rx (acks ++ more) →
      ∃ w1, deauthoriseAllTagsLoop [0x0, 0x0, 0x0, 0x0] n page w = (some true, w1) ∧
        w1.tx = w.tx ++ (List.range n).flatMap
          (fun k => (List.range 4).flatMap (fun i => [0x50, 12 + 4 * (page + k) + i, 0x00])) ∧
        w1.cts = w.cts ∧ w1.arrive = w.arrive ∧ Answers w1.arrive w1.rxObs w1.rx more := by
  intro n
  induction n with
  | zero =>
    intro page w acks more _ _ hlen _ hans
    have : acks = [] := List.length_eq_zero.mp (by simpa using hlen)
    subst this
    exact ⟨w, by simp [deauthoriseAllTagsLoop], by simp, rfl, rfl, by simpa using hans⟩
  | succ n ih =>
    intro page w acks more hl hpn hlen hgood hans
    have hsplit : acks = acks.take 4 ++ acks.drop 4 := (List.take_append_drop 4 acks).symm
    have hans1 : Answers w.arrive w.rxObs w.rx (acks.take 4 ++ (acks.drop 4 ++ more)) := by
      rw [← List.append_assoc, List.take_append_drop]; exact hans
    obtain ⟨w1, e1, e2, e3, e4, e5⟩ := writeEEPROM3_ok ((12 + 4 * page) % 256)
      [0x0, 0x0, 0x0, 0x0] w (acks.take 4) (acks.drop 4 ++ more) hl
      (by simp [List.length_take]; omega)
      (fun a h => hgood a (List.mem_of_mem_take h)) hans1
    have hl1 : AlwaysListening w1 := by intro j; rw [e3]; exact hl j
    obtain ⟨w2, f1, f2, f3, f4, f5⟩ := ih (page + 1) w1 (acks.drop 4) more hl1 (by omega)
      (by simp [List.length_drop]; omega)
      (fun a h => hgood a (List.mem_of_mem_drop h)) e5
    refine ⟨w2, ?_, ?_, f3.trans e3, f4.trans e4, f5⟩
    · simp only [deauthoriseAllTagsLoop, e1]
      exact f1
    · rw [f2, e2, progFrames_slot page (by omega),
        slots_shift (fun p => (List.range 4).flatMap (fun i => [0x50, 12 + 4 * p + i, 0x00]))]
      simp [List.append_assoc]

theorem deauthoriseAllTagsLoop_fail :
    ∀ (k n page : Nat) (w : World) (good : List Nat) (bad j : Nat), AlwaysListening w →
      page + n ≤ 60 → k < n → j < 4 → good.length = 4 * k + j →
      (∀ a, a ∈ good → a < 256 ∧ a % 2 = 0) → bad < 256 → bad % 2 = 1 →
      Answers w.arrive w.rxObs w.rx (good ++ [bad]) →
      ∃ w1, deauthoriseAllTagsLoop [0x0, 0x0, 0x0, 0x0] n page w = (some false, w1) ∧
        w1.tx = w.tx ++
          (List.range k).flatMap
            (fun s => (List.range 4).flatMap (fun i => [0x50, 12 + 4 * (page + s) + i, 0x00])) ++
          (List.range (j + 1)).flatMap (fun i => [0x50, 12 + 4 * (page + k) + i, 0x00]) ∧
        w1.last_ack = bad := by
  intro k
  induction k with
  | zero =>
    intro n page w good bad j hl hpn hkn hj hlen hgood hb hodd hans
    obtain ⟨m, rfl⟩ : ∃ m, n = m + 1 := ⟨n - 1, by omega⟩
    obtain ⟨w1, e1, e2, e3⟩ := writeEEPROM3_fail ((12 + 4 * page) % 256) good
      [0x0, 0x0, 0x0, 0x0] w bad hl (by simp; omega) hgood hb hodd hans
    refine ⟨w1, by simp only [deauthoriseAllTagsLoop, e1], ?_, e3⟩
    have hgl : good.length = j := by omega
    rw [e2, hgl, progFrames_slot_partial page j (by omega) hj]
    simp
  | succ k ih =>
    intro n page w good bad j hl hpn hkn hj hlen hgood hb hodd hans
    obtain ⟨m, rfl⟩ : ∃ m, n = m + 1 := ⟨n - 1, by omega⟩
    have hans1 : Answers w.arrive w.rxObs w.rx (good.take 4 ++ (good.drop 4 ++ [bad])) := by
      rw [← List.append_assoc, List.take_append_drop]; exact hans
    obtain ⟨w1, e1, e2, e3, e4, e5⟩ := writeEEPROM3_ok ((12 + 4 * page) % 256)
      [0x0, 0x0, 0x0, 0x0] w (good.take 4) (good.drop 4 ++ [bad]) hl
      (by simp [List.length_take]; omega)
      (fun a h => hgood a (List.mem_of_mem_take h)) hans1
    have hl1 : AlwaysListening w1 := by intro i; rw [e3]; exact hl i
    obtain ⟨w2, f1, f2, f3⟩ := ih m (page + 1) w1 (good.drop 4) bad j hl1 (by omega) (by omega)
      hj (by simp [List.length_drop]; omega)
      (fun a h => hgood a (List.mem_of_mem_drop h)) hb hodd e5
    refine ⟨w2, ?_, ?_, f3⟩
    · simp only [deauthoriseAllTagsLoop, e1]
      exact f1
    · rw [f2, e2, progFrames_slot page (by omega),
        slots_shift (fun p => (List.range 4).flatMap (fun i => [0x50, 12 + 4 * p + i, 0x00]))]
      simp [List.append_assoc, Nat.add_assoc, Nat.add_comm 1 k]

/-- C4: on a device that is always listening and acknowledges every program command
successfully (bit 0 of each of the 240 acknowledgments equals bit 0 of 0xD6),
`deauthoriseAllTags()` returns true and appends to the bytes sent exactly the frames
`[0x50, 12+4k+i, 0x00]`, `i = 0..3`, for the slots `k = 0, 1, ..., 59` in ascending order:
240 frames of three bytes. -/
theorem deauthoriseAllTags_frames (w : World) (acks : List Nat) (hl : AlwaysListening w)
    (hlen : acks.length = 240) (hgood : ∀ a, a ∈ acks → a < 256 ∧ a &&& 1 = 0xD6 &&& 1)
    (hans : Answers w.arrive w.rxObs w.rx acks) :
    (deauthoriseAllTags w).1 = some true ∧
    (deauthoriseAllTags w).2.tx = w.tx ++ (List.range 60).flatMap
      (fun k => (List.range 4).flatMap (fun i => [0x50, 12 + 4 * k + i, 0x00])) ∧
    (deauthoriseAllTags w).2.tx.length = w.tx.length + 3 * 240 := by
  obtain ⟨w1, e1, e2, _⟩ := deauthoriseAllTagsLoop_ok 60 0 w acks [] hl (by decide)
    (by simpa using hlen) (fun a h => ⟨(hgood a h).1, (bit0_okay a).mp (hgood a h).2⟩)
    (by simpa using hans)
  have e3 : w1.tx = w.tx ++ (List.range 60).flatMap
      (fun k => (List.range 4).flatMap (fun i => [0x50, 12 + 4 * k + i, 0x00])) := by
    simpa using e2
  refine ⟨by simp only [deauthoriseAllTags, e1], by simp only [deauthoriseAllTags, e1, e3], ?_⟩
  simp only [deauthoriseAllTags, e1, e3, List.length_append]
  rw [slots_length 60 _ (fun k => by simp [List.range_succ, List.flatMap])]

/-- Witness for C4: a fresh driver whose device always listens and has queued 240
acknowledgments 0xD6. -/
theorem deauthoriseAllTags_frames_witness :
    (deauthoriseAllTags (init (fun _ => false) (fun _ => []) (List.replicate 240 0xD6))).1 =
      some true ∧
    (deauthoriseAllTags (init (fun _ => false) (fun _ => []) (List.replicate 240 0xD6))).2.tx =
      (init (fun _ => false) (fun _ => []) (List.replicate 240 0xD6)).tx ++
        (List.range 60).flatMap
          (fun k => (List.range 4).flatMap (fun i => [0x50, 12 + 4 * k + i, 0x00])) ∧
    (deauthoriseAllTags
        (init (fun _ => false) (fun _ => []) (List.replicate 240 0xD6))).2.tx.length =
      (init (fun _ => false) (fun _ => []) (List.replicate 240 0xD6)).tx.length + 3 * 240 :=
  deauthoriseAllTags_frames (init (fun _ => false) (fun _ => []) (List.replicate 240 0xD6))
    (List.replicate 240 0xD6) (fun _ => rfl) (List.length_replicate _ _)
    (fun a h => by rw [List.eq_of_mem_replicate h]; decide)
    (by simpa [init] using answers_preloaded 0 (List.replicate 240 0xD6) [])

/-- C5: if the device always listens and the first failing acknowledgment (bit 0 different
from bit 0 of 0xD6) answers frame `j` of slot `k`, all earlier program commands having been
acknowledged successfully, then `deauthoriseAllTags()` returns false and the bytes it sent are
exactly the complete sequences of the slots `0..k-1` followed by the frames `0..j` of slot
`k`: nothing is sent after the failing frame. -/
theorem deauthoriseAllTags_stops (w : World) (k j : Nat) (good : List Nat) (bad : Nat)
    (hl : AlwaysListening w) (hk : k < 60) (hj : j < 4) (hlen : good.length = 4 * k + j)
    (hgood : ∀ a, a ∈ good → a < 256 ∧ a &&& 1 = 0xD6 &&& 1)
    (hb : bad < 256) (hbad : bad &&& 1 ≠ 0xD6 &&& 1)
    (hans : Answers w.arrive w.rxObs w.rx (good ++ [bad])) :
    (deauthoriseAllTags w).1 = some false ∧
    (deauthoriseAllTags w).2.tx = w.tx ++
      (List.range k).flatMap
        (fun s => (List.range 4).flatMap (fun i => [0x50, 12 + 4 * s + i, 0x00])) ++
      (List.range (j + 1)).flatMap (fun i => [0x50, 12 + 4 * k + i, 0x00]) := by
  have hodd : bad % 2 = 1 := by
    have := (bit0_okay bad).not.mp hbad
    omega
  obtain ⟨w1, e1, e2, _⟩ := deauthoriseAllTagsLoop_fail k 60 0 w good bad j hl (by decide) hk hj
    hlen (fun a h => ⟨(hgood a h).1, (bit0_okay a).mp (hgood a h).2⟩) hb hodd hans
  refine ⟨by simp only [deauthoriseAllTags, e1], ?_⟩
  simp only [deauthoriseAllTags, e1]
  simpa using e2

/-- Witness for C5: the seventh acknowledgment (slot 1, frame 2) is 0xD7; the device has more
successful acknowledgments queued behind it, which are never consumed. -/
theorem deauthoriseAllTags_stops_witness :
    (deauthoriseAllTags (init (fun _ => false) (fun _ => [])
      ([0xD6, 0xD6, 0xD6, 0xD6, 0xD6, 0xD6] ++ [0xD7] ++ [0xD6, 0xD6, 0xD6]))).1 = some false ∧
    (deauthoriseAllTags (init (fun _ => false) (fun _ => [])
      ([0xD6, 0xD6, 0xD6, 0xD6, 0xD6, 0xD6] ++ [0xD7] ++ [0xD6, 0xD6, 0xD6]))).2.tx =
      [0x50, 12, 0, 0x50, 13, 0, 0x50, 14, 0, 0x50, 15, 0,
       0x50, 16, 0, 0x50, 17, 0, 0x50, 18, 0] :=
  deauthoriseAllTags_stops (init (fun _ => false) (fun _ => [])
      ([0xD6, 0xD6, 0xD6, 0xD6, 0xD6, 0xD6] ++ [0xD7] ++ [0xD6, 0xD6, 0xD6])) 1 2
    [0xD6, 0xD6, 0xD6, 0xD6, 0xD6, 0xD6] 0xD7 (fun _ => rfl) (by decide) (by decide) rfl
    (by decide) (by decide) (by decide)
    (answers_preloaded 0 ([0xD6, 0xD6, 0xD6, 0xD6, 0xD6, 0xD6] ++ [0xD7]) [0xD6, 0xD6, 0xD6])

/-! ## A device that never listens -/

theorem neverListening_high (w : World) (h : NeverListening w) :
    ∀ j, j ≤ 200 → w.cts (w.ctsReads + j) = true :=
  fun _ _ => h _

theorem write2_deaf (cmd mask : Nat) (w : World) (h : NeverListening w) :
    write2 cmd mask w =
      (none, println "RWDH2::listening timeout"
        { w with ctsReads := w.ctsReads + 201, millis := w.millis + 1000 }) := by
  simp [write2, write3_deaf [cmd] mask w (neverListening_high w h)]

theorem getUID_deaf (uid : List Nat) (w : World) (h : NeverListening w) :
    getUID uid w =
      (none, uid, println "RWDH2::listening timeout"
        { w with ctsReads := w.ctsReads + 201, millis := w.millis + 1000 }) := by
  simp [getUID, write2_deaf _ _ w h]

theorem writeTag_deaf (page : Nat) (data : List Nat) (w : World) (h : NeverListening w) :
    writeTag page data w =
      (none, println "RWDH2::listening timeout"
        { w with ctsReads := w.ctsReads + 201, millis := w.millis + 1000 }) := by
  simp [writeTag, write3_deaf _ _ w (neverListening_high w h)]

theorem readTag_deaf (page : Nat) (data : List Nat) (w : World) (h : NeverListening w) :
    readTag page data w =
      (none, data, println "RWDH2::listening timeout"
        { w with ctsReads := w.ctsReads + 201, millis := w.millis + 1000 }) := by
  simp [readTag, write3_deaf _ _ w (neverListening_high w h)]

/-- C6, the code at the failing input: on a fresh driver whose CTS line reads HIGH at every
poll, `getUID(uid)` gives up after 201 polls and 1000 ms of waiting, logs the timeout, sends
no byte, reads no byte and leaves `uid` alone, but the value it hands back is not `false`: it
is indeterminate, because no `return` statement was executed on the way. -/
theorem getUID_never_listening :
    (getUID [0, 0, 0, 0] (init (fun _ => true) (fun _ => []) [])).1 = none ∧
    (getUID [0, 0, 0, 0] (init (fun _ => true) (fun _ => []) [])).2.1 = [0, 0, 0, 0] ∧
    (getUID [0, 0, 0, 0] (init (fun _ => true) (fun _ => []) [])).2.2.tx = [] ∧
    (getUID [0, 0, 0, 0] (init (fun _ => true) (fun _ => []) [])).2.2.rxObs = 0 ∧
    (getUID [0, 0, 0, 0] (init (fun _ => true) (fun _ => []) [])).2.2.ctsReads = 201 ∧
    (getUID [0, 0, 0, 0] (init (fun _ => true) (fun _ => []) [])).2.2.millis = 1000 ∧
    (getUID [0, 0, 0, 0] (init (fun _ => true) (fun _ => []) [])).2.2.console =
      ["RWDH2::listening timeout"] := by
  rw [getUID_deaf _ _ (fun _ => rfl)]
  simp [init, println]

/-- C7, the code at the failing input: on a fresh driver whose CTS line reads HIGH at every
poll, `write(cmd[], mask, size)` sends no byte and reads no response byte, but it ends
without a `return` statement, so its value is indeterminate rather than `false`; the same
holds for `writeTag` and `readTag`, which hand that value on. -/
theorem write3_never_listening :
    (write3 [0x57, 2, 1, 2, 3, 4] 0x3E (init (fun _ => true) (fun _ => []) [0xD6])).1 = none ∧
    (write3 [0x57, 2, 1, 2, 3, 4] 0x3E (init (fun _ => true) (fun _ => []) [0xD6])).2.tx = [] ∧
    (write3 [0x57, 2, 1, 2, 3, 4] 0x3E (init (fun _ => true) (fun _ => []) [0xD6])).2.rxObs = 0 ∧
    (write3 [0x57, 2, 1, 2, 3, 4] 0x3E (init (fun _ => true) (fun _ => []) [0xD6])).2.rx =
      [0xD6] ∧
    (writeTag 2 [1, 2, 3, 4] (init (fun _ => true) (fun _ => []) [0xD6])).1 = none ∧
    (readTag 2 [0, 0, 0, 0] (init (fun _ => true) (fun _ => []) [0xD6])).1 = none := by
  rw [write3_deaf _ _ _ (neverListening_high _ (fun _ => rfl)),
    writeTag_deaf _ _ _ (fun _ => rfl), readTag_deaf _ _ _ (fun _ => rfl)]
  simp [init, println]

/-! ## The tag password -/

theorem writeTagTagPassword_exchange (pw0 pw1 pw2 : Nat) (w : World) (k1 k2 r : Nat)
    (rest : List Nat) (hk1 : k1 ≤ 200) (hk2 : k2 ≤ 200) (hl : ListensAfter w k1)
    (ha : AnswersAfter w k2 r rest) (hr : r < 256) :
    (writeTagTagPassword [pw0, pw1, pw2] w).1 = some (decide (r &&& 0x3E = 0xD6 &&& 0x3E)) ∧
    (writeTagTagPassword [pw0, pw1, pw2] w).2.tx = w.tx ++ [0x57, 0x03, 0x06, pw0, pw1, pw2] := by
  simp only [writeTagTagPassword, writeTag]
  rw [write3_exchange _ _ w k1 k2 r rest hk1 hk2 hl ha hr]
  refine ⟨?_, by simp [RWDH2_CMD_WRITE]⟩
  simp only [RWDH2_OKAY, RWDH2_WRITE_MASK]
  congr 1

/-- C8 as stated fails: on a fresh driver whose device listens and answers 0xD6,
`writeTagTagPassword` of the password `0xAA, 0xBB, 0xCC` returns true but the frame it sends
addresses tag page 3, not tag page 1. -/
theorem writeTagTagPassword_not_page1 :
    (writeTagTagPassword [0xAA, 0xBB, 0xCC] (init (fun _ => false) (fun _ => []) [0xD6])).1 =
      some true ∧
    (writeTagTagPassword [0xAA, 0xBB, 0xCC] (init (fun _ => false) (fun _ => []) [0xD6])).2.tx =
      [0x57, 0x03, 0x06, 0xAA, 0xBB, 0xCC] ∧
    (writeTagTagPassword [0xAA, 0xBB, 0xCC] (init (fun _ => false) (fun _ => []) [0xD6])).2.tx ≠
      [0x57, 0x01, 0x06, 0xAA, 0xBB, 0xCC] := by
  have h := writeTagTagPassword_exchange 0xAA 0xBB 0xCC
    (init (fun _ => false) (fun _ => []) [0xD6]) 0 0 0xD6 [] (by decide) (by decide)
    (listensAfter_zero _ rfl) (answersAfter_zero _ _ _ rfl) (by decide)
  refine ⟨h.1, h.2, ?_⟩
  rw [h.2]
  decide

/-- C8 amended: `writeTagTagPassword` writes the tag password to tag page 3; on a device that
starts listening within the timeout and answers 0xD6 it returns true and appends exactly the
frame `[0x57, 0x03, 0x06, pw[0], pw[1], pw[2]]` to the bytes sent. -/
theorem writeTagTagPassword_page3 (pw0 pw1 pw2 : Nat) (w : World) (k1 k2 : Nat)
    (rest : List Nat) (hk1 : k1 ≤ 200) (hk2 : k2 ≤ 200) (hl : ListensAfter w k1)
    (ha : AnswersAfter w k2 0xD6 rest) :
    (writeTagTagPassword [pw0, pw1, pw2] w).1 = some true ∧
    (writeTagTagPassword [pw0, pw1, pw2] w).2.tx = w.tx ++ [0x57, 0x03, 0x06, pw0, pw1, pw2] :=
  writeTagTagPassword_exchange pw0 pw1 pw2 w k1 k2 0xD6 rest hk1 hk2 hl ha (by decide)

/-- Witness for the amended C8: the password `1, 2, 3`, a device that starts listening at the
third poll and whose answer 0xD6 is found at the second look at the stream. -/
theorem writeTagTagPassword_page3_witness :
    (writeTagTagPassword [1, 2, 3]
      (init (fun n => decide (n < 2)) (fun n => if n = 1 then [0xD6] else []) [])).1 =
      some true ∧
    (writeTagTagPassword [1, 2, 3]
      (init (fun n => decide (n < 2)) (fun n => if n = 1 then [0xD6] else []) [])).2.tx =
      (init (fun n => decide (n < 2)) (fun n => if n = 1 then [0xD6] else []) []).tx ++
        [0x57, 0x03, 0x06, 1, 2, 3] :=
  writeTagTagPassword_page3 1 2 3
    (init (fun n => decide (n < 2)) (fun n => if n = 1 then [0xD6] else []) []) 2 1 []
    (by decide) (by decide)
    ⟨fun j hj => by simp [init]; omega, by simp [init]⟩
    ⟨fun j hj => by simp [init]; omega, by simp [init]⟩

/-! ## The identifier string -/

theorem set_take_drop (buf : List Nat) (i b : Nat) (bs : List Nat)
    (h : i + (bs.length + 1) ≤ buf.length) :
    (buf.set i b).take (i + 1) ++ bs ++ (buf.set i b).drop (i + 1 + bs.length) =
      buf.take i ++ b :: bs ++ buf.drop (i + (bs.length + 1)) := by
  have hi : i < buf.length := by omega
  rw [List.drop_set_of_lt b buf (by omega : i < i + 1 + bs.length),
    List.set_eq_take_cons_drop b hi]
  have hlen : (List.take i buf).length = i := by simp [List.length_take]; omega
  rw [List.take_append_eq_append_take, hlen, List.take_of_length_le (by omega)]
  simp [Nat.add_assoc, Nat.add_comm 1]

theorem read1Loop_drain :
    ∀ (s : List Nat) (fuel i : Nat) (buffer : List Nat) (w : World), w.rx = s →
      (∀ n, w.rxObs ≤ n → w.arrive n = []) → s.length < fuel → i + s.length ≤ 256 →
      i + s.length ≤ buffer.length → (∀ b, b ∈ s → b < 256) →
      read1Loop fuel i buffer w =
        some (buffer.take i ++ s ++ buffer.drop (i + s.length),
          { w with rx := [], rxObs := w.rxObs + 2 * s.length + 1,
                   millis := w.millis + s.length }) := by
  intro s
  induction s with
  | nil =>
    intro fuel i buffer w hrx hq hf _ _ _
    obtain ⟨f, rfl⟩ : ∃ f, fuel = f + 1 := ⟨fuel - 1, by omega⟩
    simp [read1Loop, serialAvailable, hrx, hq w.rxObs (Nat.le_refl _)]
  | cons b bs ih =>
    intro fuel i buffer w hrx hq hf hi hcap hbyte
    obtain ⟨f, rfl⟩ : ∃ f, fuel = f + 1 := ⟨fuel - 1, by omega⟩
    have hb : b % 256 = b := Nat.mod_eq_of_lt (hbyte b (by simp))
    have hq0 := hq w.rxObs (Nat.le_refl _)
    have hq1 := hq (w.rxObs + 1) (by omega)
    simp only [List.length_cons] at hf hi hcap
    have hrec := ih f ((i + 1) % 256) (buffer.set i b)
      { w with rx := bs, rxObs := w.rxObs + 1 + 1, millis := w.millis + 1 } rfl
      (fun n hn => hq n (by simp at hn; omega)) (by omega)
      (by
        rcases Nat.lt_or_ge (i + 1) 256 with h | h
        · rw [Nat.mod_eq_of_lt h]; omega
        · have : i + 1 = 256 := by omega
          rw [this]; simp; omega)
      (by
        have := Nat.mod_le (i + 1) 256
        simp only [List.length_set]; omega)
      (fun c hc => hbyte c (by simp [hc]))
    simp only [read1Loop, serialAvailable, read0, serialRead, delay, hrx, hq0, hq1,
      List.append_nil, List.isEmpty_cons, Bool.not_false, if_true, hb]
    rw [hrec]
    congr 1
    refine Prod.ext ?_ ?_
    · simp only [List.length_cons]
      rcases Nat.lt_or_ge (i + 1) 256 with h | h
      · rw [Nat.mod_eq_of_lt h]
        exact set_take_drop buffer i b bs (by omega)
      · have hbs : bs = [] := List.length_eq_zero.mp (by omega)
        subst hbs
        have hi255 : i + 1 = 256 := by omega
        have hlt : i < buffer.length := by simp at hcap; omega
        rw [hi255]
        simp [List.set_eq_take_cons_drop b hlt]
    · simp
      constructor <;> omega

theorem getIdentifier_run (identifier : List Nat) (fuel : Nat) (w w1 w2 w3 : World)
    (buffer : List Nat) (h0 : listening0 w = (true, w1))
    (h1 : available0 (write1 RWDH2_CMD_MESSAGE w1) = (true, w2))
    (h2 : read1Loop fuel 0 identifier w2 = some (buffer, w3)) :
    getIdentifier identifier fuel w = some (true, buffer, w3) := by
  simp [getIdentifier, read1, h0, h1, h2]

/-- C10: if the device starts listening within the timeout and the non-empty byte string `s`
(at most 255 bytes) is what the receive buffer holds when `read(buffer)` finds data, nothing
arriving after it, then `getIdentifier(buffer)` appends the single byte 0x7A to the bytes
sent, returns true and leaves `s` verbatim in `buffer[0..|s|-1]`, the rest of the buffer
untouched; no mask is applied, the result is true whatever the bytes of `s` are, and the
last-acknowledgment field keeps its value.  Any bound larger than `|s|` on the drain loop
gives this result. -/
theorem getIdentifier_verbatim (s identifier : List Nat) (fuel : Nat) (w : World) (k1 k2 : Nat)
    (hs : s ≠ []) (hlen : s.length ≤ 255) (hbyte : ∀ b, b ∈ s → b < 256)
    (hcap : s.length ≤ identifier.length) (hfuel : s.length < fuel)
    (hk1 : k1 ≤ 200) (hk2 : k2 ≤ 200) (hl : ListensAfter w k1)
    (hempty : ∀ j, j < k2 → w.rx ++ w.arrive (w.rxObs + j) = [])
    (hnow : w.rx ++ w.arrive (w.rxObs + k2) = s)
    (hquiet : ∀ n, w.rxObs + k2 < n → w.arrive n = []) :
    ∃ w1, getIdentifier identifier fuel w =
        some (true, s ++ identifier.drop s.length, w1) ∧
      w1.tx = w.tx ++ [0x7A] ∧ getLastAck w1 = getLastAck w ∧ w1.rx = [] := by
  obtain ⟨r, rest, rfl⟩ : ∃ r rest, s = r :: rest := List.exists_cons_of_ne_nil hs
  have h0 := listening0_true w k1 hk1 hl
  have h1 := available0_true
    (write1 RWDH2_CMD_MESSAGE
      { w with ctsReads := w.ctsReads + k1 + 1, millis := w.millis + 5 * k1 })
    k2 r rest hk2 ⟨by simpa [write1, serialWrite] using hempty,
      by simpa [write1, serialWrite] using hnow⟩
  have h2 := read1Loop_drain (r :: rest) fuel 0 identifier
    { write1 RWDH2_CMD_MESSAGE
        { w with ctsReads := w.ctsReads + k1 + 1, millis := w.millis + 5 * k1 } with
      rx := r :: rest,
      rxObs := (write1 RWDH2_CMD_MESSAGE
        { w with ctsReads := w.ctsReads + k1 + 1, millis := w.millis + 5 * k1 }).rxObs + k2 + 1,
      millis := (write1 RWDH2_CMD_MESSAGE
        { w with ctsReads := w.ctsReads + k1 + 1, millis := w.millis + 5 * k1 }).millis +
          5 * k2 }
    rfl
    (fun n hn => hquiet n (by simp [write1, serialWrite] at hn; omega))
    hfuel (by omega) (by simpa using hcap) hbyte
  have hrun := getIdentifier_run identifier fuel w _ _ _ _ h0 h1 h2
  simp only [List.take_zero, List.nil_append, Nat.zero_add] at hrun
  exact ⟨_, hrun, by simp [write1, serialWrite, RWDH2_CMD_MESSAGE],
    by simp [write1, serialWrite, getLastAck], by simp⟩

/-- Witness for C10: the string "RWD H2 test" queued on a fresh driver with a 16-byte
buffer; the driver's last acknowledgment stays at its initial value 0xD6. -/
theorem getIdentifier_verbatim_witness :
    "RWD H2 test".toList.map Char.toNat =
      [0x52, 0x57, 0x44, 0x20, 0x48, 0x32, 0x20, 0x74, 0x65, 0x73, 0x74] ∧
    ∃ w1, getIdentifier (List.replicate 16 0) 12
        (init (fun _ => false) (fun _ => [])
          [0x52, 0x57, 0x44, 0x20, 0x48, 0x32, 0x20, 0x74, 0x65, 0x73, 0x74]) =
        some (true, [0x52, 0x57, 0x44, 0x20, 0x48, 0x32, 0x20, 0x74, 0x65, 0x73, 0x74] ++
          (List.replicate 16 0).drop
            [0x52, 0x57, 0x44, 0x20, 0x48, 0x32, 0x20, 0x74, 0x65, 0x73, 0x74].length, w1) ∧
      w1.tx = (init (fun _ => false) (fun _ => [])
          [0x52, 0x57, 0x44, 0x20, 0x48, 0x32, 0x20, 0x74, 0x65, 0x73, 0x74]).tx ++ [0x7A] ∧
      getLastAck w1 = getLastAck (init (fun _ => false) (fun _ => [])
          [0x52, 0x57, 0x44, 0x20, 0x48, 0x32, 0x20, 0x74, 0x65, 0x73, 0x74]) ∧
      w1.rx = [] :=
  ⟨by decide,
   getIdentifier_verbatim [0x52, 0x57, 0x44, 0x20, 0x48, 0x32, 0x20, 0x74, 0x65, 0x73, 0x74]
    (List.replicate 16 0) 12
    (init (fun _ => false) (fun _ => [])
      [0x52, 0x57, 0x44, 0x20, 0x48, 0x32, 0x20, 0x74, 0x65, 0x73, 0x74]) 0 0
    (by decide) (by decide) (by decide) (by decide) (by decide) (by decide) (by decide)
    (listensAfter_zero _ rfl) (fun j hj => absurd hj (Nat.not_lt_zero j)) rfl
    (fun _ _ => rfl)⟩

/-! ## The last acknowledgment -/

/-- A command that the device accepts but never answers. -/
theorem write3_silent (cmd : List Nat) (mask : Nat) (w : World) (k1 : Nat) (hk1 : k1 ≤ 200)
    (hl : ListensAfter w k1) (hq : ∀ j, j ≤ 200 → w.rx ++ w.arrive (w.rxObs + j) = []) :
    write3 cmd mask w =
      (some false, println "RWDH2::available timeout"
        { w with ctsReads := w.ctsReads + k1 + 1,
                 rxObs := w.rxObs + 201,
                 rx := [],
                 tx := w.tx ++ cmd,
                 millis := w.millis + 5 * k1 + 1000 }) := by
  simp only [write3, listening0_true w k1 hk1 hl, if_true, write3Loop_tx]
  rw [available0_false _ (by simpa using hq)]
  simp

/-- The last acknowledgment on the paths of the masked send on which every statement executed
is defined: a response byte that is read is stored whatever the mask test gives; a device
that listens but does not answer within the timeout leaves the field alone; a fresh driver
object holds 0xD6. -/
theorem write3_last_ack_defined (cmd : List Nat) (m : Nat) (w : World) :
    (∀ (k1 k2 r : Nat) (rest : List Nat), k1 ≤ 200 → k2 ≤ 200 → ListensAfter w k1 →
      AnswersAfter w k2 r rest → r < 256 →
      getLastAck (write3 cmd m w).2 = r ∧
        (write3 cmd m w).2.rx = rest ++ w.arrive (w.rxObs + k2 + 1)) ∧
    (∀ (k1 : Nat), k1 ≤ 200 → ListensAfter w k1 →
      (∀ j, j ≤ 200 → w.rx ++ w.arrive (w.rxObs + j) = []) →
      getLastAck (write3 cmd m w).2 = getLastAck w ∧ (write3 cmd m w).1 = some false) ∧
    (∀ (cts : Nat → Bool) (arrive : Nat → List Nat) (rx : List Nat),
      getLastAck (init cts arrive rx) = 0xD6) := by
  refine ⟨?_, ?_, ?_⟩
  · intro k1 k2 r rest hk1 hk2 hl ha hr
    rw [write3_exchange cmd m w k1 k2 r rest hk1 hk2 hl ha hr]
    exact ⟨rfl, rfl⟩
  · intro k1 hk1 hl hq
    rw [write3_silent cmd m w k1 hk1 hl hq]
    exact ⟨rfl, rfl⟩
  · intro cts arrive rx
    rfl

/-- C11, the code at the failing input: on a fresh driver whose CTS line reads HIGH at every
poll while the byte 0xC6 waits in the receive buffer, `write(cmd[], mask, size)` finds
`listening()` false and reaches the closing brace of the function without executing a
`return` statement.  From there on the behaviour of the program is undefined, so the source
does not guarantee what the claim says for a device that is not listening, namely that
`getLastAck()` still returns what it returned before the call.  On the paths that are defined
the claim holds: a listening device that answers 0xC6 leaves 0xC6 in the field although the
mask test fails, and a listening device that does not answer leaves the initial 0xD6. -/
theorem write3_last_ack_not_listening :
    (write3 [0x52, 0x04] 0x3E (init (fun _ => true) (fun _ => []) [0xC6])).1 = none ∧
    ((write3 [0x52, 0x04] 0x3E (init (fun _ => false) (fun _ => []) [0xC6])).1 = some false ∧
      getLastAck (write3 [0x52, 0x04] 0x3E (init (fun _ => false) (fun _ => []) [0xC6])).2 =
        0xC6) ∧
    ((write3 [0x52, 0x04] 0x3E (init (fun _ => false) (fun _ => []) [])).1 = some false ∧
      getLastAck (write3 [0x52, 0x04] 0x3E (init (fun _ => false) (fun _ => []) [])).2 =
        0xD6) := by
  refine ⟨?_, ⟨?_, ?_⟩, ⟨?_, ?_⟩⟩
  · rw [write3_deaf _ _ _ (fun _ _ => rfl)]
  · rw [write3_result [0x52, 0x04] 0x3E (init (fun _ => false) (fun _ => []) [0xC6]) 0 0 0xC6 []
      (by decide) (by decide) (listensAfter_zero _ rfl) (answersAfter_zero _ _ _ rfl)
      (by decide)]
    decide
  · exact ((write3_last_ack_defined [0x52, 0x04] 0x3E
      (init (fun _ => false) (fun _ => []) [0xC6])).1 0 0 0xC6 [] (by decide) (by decide)
      (listensAfter_zero _ rfl) (answersAfter_zero _ _ _ rfl) (by decide)).1
  · exact ((write3_last_ack_defined [0x52, 0x04] 0x3E
      (init (fun _ => false) (fun _ => []) [])).2.1 0 (by decide) (listensAfter_zero _ rfl)
      (fun _ _ => rfl)).2
  · exact ((write3_last_ack_defined [0x52, 0x04] 0x3E
      (init (fun _ => false) (fun _ => []) [])).2.1 0 (by decide) (listensAfter_zero _ rfl)
      (fun _ _ => rfl)).1

/-! ## Reading a tag page -/

theorem arrivals_shift (f : Nat → List Nat) (obs n : Nat) :
    f obs ++ (List.range n).flatMap (fun j => f (obs + 1 + j)) =
      (List.range (n + 1)).flatMap (fun j => f (obs + j)) :=
  (slots_shift f obs n).symm

theorem read2Loop_heads :
    ∀ (bs : List Nat) (i : Nat) (buffer : List Nat) (w : World) (rest : List Nat),
      w.rx = bs ++ rest → (∀ b, b ∈ bs → b < 256) → i + bs.length ≤ buffer.length →
      read2Loop bs.length i buffer w =
        (buffer.take i ++ bs ++ buffer.drop (i + bs.length),
          { w with rx := rest ++ (List.range bs.length).flatMap (fun j => w.arrive (w.rxObs + j)),
                   rxObs := w.rxObs + bs.length,
                   millis := w.millis + bs.length }) := by
  intro bs
  induction bs with
  | nil =>
    intro i buffer w rest hrx _ _
    simp at hrx
    simp [read2Loop, ← hrx]
  | cons b bs ih =>
    intro i buffer w rest hrx hbyte hcap
    have hb : b % 256 = b := Nat.mod_eq_of_lt (hbyte b (by simp))
    simp only [List.length_cons] at hcap
    have hrec := ih (i + 1) (buffer.set i b)
      { w with rx := bs ++ (rest ++ w.arrive w.rxObs), rxObs := w.rxObs + 1,
               millis := w.millis + 1 }
      (rest ++ w.arrive w.rxObs) rfl (fun c hc => hbyte c (by simp [hc]))
      (by simp only [List.length_set]; omega)
    simp only [List.length_cons, read2Loop, read0, serialRead, delay, hrx, List.cons_append,
      List.append_assoc, hb]
    rw [hrec]
    rw [Prod.mk.injEq]
    refine ⟨by simpa using set_take_drop buffer i b bs (by omega), ?_⟩
    simp only [List.append_assoc, arrivals_shift w.arrive w.rxObs bs.length]
    simp
    constructor <;> omega

/-- A successful `read(buffer, 4)` on a receive buffer that starts with four bytes. -/
theorem read2_four (d0 d1 d2 d3 b0 b1 b2 b3 : Nat) (w : World) (rest : List Nat)
    (hrx : w.rx = b0 :: b1 :: b2 :: b3 :: rest)
    (hb : b0 < 256 ∧ b1 < 256 ∧ b2 < 256 ∧ b3 < 256) :
    read2 [d0, d1, d2, d3] 4 w =
      (true, [b0, b1, b2, b3],
        { w with rx := rest ++ (List.range 5).flatMap (fun j => w.arrive (w.rxObs + j)),
                 rxObs := w.rxObs + 5,
                 millis := w.millis + 4 }) := by
  have h1 := available0_true w 0 b0 (b1 :: b2 :: b3 :: rest ++ w.arrive w.rxObs) (by decide)
    (answersAfter_zero w _ _ (by simp [hrx]))
  have h2 := read2Loop_heads [b0, b1, b2, b3] 0 [d0, d1, d2, d3]
    { w with rx := b0 :: (b1 :: b2 :: b3 :: rest ++ w.arrive w.rxObs),
             rxObs := w.rxObs + 0 + 1, millis := w.millis + 5 * 0 }
    (rest ++ w.arrive w.rxObs) (by simp)
    (by intro b hb1; simp at hb1; omega) (by simp)
  simp only [List.length_cons, List.length_nil] at h2
  simp only [read2, h1, if_true, h2]
  simp [List.range_succ, List.flatMap, Nat.add_assoc]

/-- C12: on a device that starts listening within the timeout, `readTag(p, data)` appends
exactly `0x52, p` to the bytes sent.  If the acknowledgment `r` satisfies
`(r & 0x3E) == (0xD6 & 0x3E)` and is followed in the receive buffer by the payload
`b0, b1, b2, b3`, it returns true, leaves `data == [b0, b1, b2, b3]` and takes exactly these
four bytes (after `r`) from the receive buffer; if `(r & 0x3E) != (0xD6 & 0x3E)` it returns
false, takes no byte after `r` from the receive buffer and leaves `data` unchanged. -/
theorem readTag_page (p d0 d1 d2 d3 r : Nat) (w : World) (k1 k2 : Nat) (_hp : p ≤ 7)
    (hk1 : k1 ≤ 200) (hk2 : k2 ≤ 200) (hl : ListensAfter w k1) (hr : r < 256) :
    (∀ (b0 b1 b2 b3 : Nat) (rest : List Nat),
      AnswersAfter w k2 r (b0 :: b1 :: b2 :: b3 :: rest) →
      b0 < 256 → b1 < 256 → b2 < 256 → b3 < 256 → r &&& 0x3E = 0xD6 &&& 0x3E →
      (readTag p [d0, d1, d2, d3] w).1 = some true ∧
      (readTag p [d0, d1, d2, d3] w).2.1 = [b0, b1, b2, b3] ∧
      (readTag p [d0, d1, d2, d3] w).2.2.tx = w.tx ++ [0x52, p] ∧
      (readTag p [d0, d1, d2, d3] w).2.2.rx =
        rest ++ (List.range 6).flatMap (fun j => w.arrive (w.rxObs + k2 + 1 + j))) ∧
    (∀ (rest : List Nat), AnswersAfter w k2 r rest → r &&& 0x3E ≠ 0xD6 &&& 0x3E →
      (readTag p [d0, d1, d2, d3] w).1 = some false ∧
      (readTag p [d0, d1, d2, d3] w).2.1 = [d0, d1, d2, d3] ∧
      (readTag p [d0, d1, d2, d3] w).2.2.tx = w.tx ++ [0x52, p] ∧
      (readTag p [d0, d1, d2, d3] w).2.2.rx = rest ++ w.arrive (w.rxObs + k2 + 1) ∧
      (readTag p [d0, d1, d2, d3] w).2.2.rxObs = w.rxObs + k2 + 2) := by
  refine ⟨?_, ?_⟩
  · intro b0 b1 b2 b3 rest ha h0 h1 h2 h3 hmask
    have hb : ((r &&& RWDH2_READ_MASK) == (RWDH2_OKAY &&& RWDH2_READ_MASK)) = true := by
      simpa [RWDH2_READ_MASK, RWDH2_OKAY] using hmask
    have hx := write3_exchange [RWDH2_CMD_READ, p] RWDH2_READ_MASK w k1 k2 r
      (b0 :: b1 :: b2 :: b3 :: rest) hk1 hk2 hl ha hr
    rw [hb] at hx
    have hrd := read2_four d0 d1 d2 d3 b0 b1 b2 b3
      { w with ctsReads := w.ctsReads + k1 + 1, rxObs := w.rxObs + k2 + 2,
               rx := (b0 :: b1 :: b2 :: b3 :: rest) ++ w.arrive (w.rxObs + k2 + 1),
               tx := w.tx ++ [RWDH2_CMD_READ, p],
               millis := w.millis + 5 * k1 + 5 * k2 + 1, last_ack := r }
      (rest ++ w.arrive (w.rxObs + k2 + 1)) (by simp) ⟨h0, h1, h2, h3⟩
    simp only [readTag, hx, hrd]
    simp [RWDH2_CMD_READ, List.range_succ, List.flatMap, Nat.add_assoc]
  · intro rest ha hmask
    have hb : ((r &&& RWDH2_READ_MASK) == (RWDH2_OKAY &&& RWDH2_READ_MASK)) = false := by
      simpa [RWDH2_READ_MASK, RWDH2_OKAY] using hmask
    have hx := write3_exchange [RWDH2_CMD_READ, p] RWDH2_READ_MASK w k1 k2 r rest hk1 hk2 hl
      ha hr
    rw [hb] at hx
    simp only [readTag, hx]
    simp [RWDH2_CMD_READ]

/-- Witness for C12: page 4 on a fresh driver; the device has answered 0xD7 (bit 0 is not
under the mask) followed by `1, 2, 3, 4`, respectively 0xC6 followed by the same bytes. -/
theorem readTag_page_witness :
    ((readTag 4 [0, 0, 0, 0] (init (fun _ => false) (fun _ => []) [0xD7, 1, 2, 3, 4])).1 =
        some true ∧
      (readTag 4 [0, 0, 0, 0] (init (fun _ => false) (fun _ => []) [0xD7, 1, 2, 3, 4])).2.1 =
        [1, 2, 3, 4]) ∧
    ((readTag 4 [0, 0, 0, 0] (init (fun _ => false) (fun _ => []) [0xC6, 1, 2, 3, 4])).1 =
        some false ∧
      (readTag 4 [0, 0, 0, 0] (init (fun _ => false) (fun _ => []) [0xC6, 1, 2, 3, 4])).2.2.rx =
        [1, 2, 3, 4]) :=
  ⟨(fun h => ⟨h.1, h.2.1⟩)
    ((readTag_page 4 0 0 0 0 0xD7
        (init (fun _ => false) (fun _ => []) [0xD7, 1, 2, 3, 4]) 0 0 (by decide) (by decide)
        (by decide) (listensAfter_zero _ rfl) (by decide)).1 1 2 3 4 []
        (answersAfter_zero _ _ _ rfl) (by decide) (by decide) (by decide) (by decide)
        (by decide)),
   (fun h => ⟨h.1, h.2.2.2.1⟩)
    ((readTag_page 4 0 0 0 0 0xC6
        (init (fun _ => false) (fun _ => []) [0xC6, 1, 2, 3, 4]) 0 0 (by decide) (by decide)
        (by decide) (listensAfter_zero _ rfl) (by decide)).2 [1, 2, 3, 4]
        (answersAfter_zero _ _ _ rfl) (by decide))⟩

/-! ## Authorising a tag -/

theorem progFrames_four (start u0 u1 u2 u3 : Nat) :
    progFrames (start % 256) 0 [u0, u1, u2, u3] =
      [0x50, start % 256, u0, 0x50, (start + 1) % 256, u1,
       0x50, (start + 2) % 256, u2, 0x50, (start + 3) % 256, u3] := by
  simp [progFrames, Nat.mod_add_mod]

theorem authoriseTag_run (s u0 u1 u2 u3 : Nat) (w : World) (acks : List Nat)
    (hl : AlwaysListening w) (hlen : acks.length = 4)
    (hgood : ∀ a, a ∈ acks → a < 256 ∧ a &&& 1 = 0xD6 &&& 1)
    (hans : Answers w.arrive w.rxObs w.rx acks) :
    (authoriseTag [u0, u1, u2, u3] s w).1 = some true ∧
    (authoriseTag [u0, u1, u2, u3] s w).2.tx = w.tx ++
      [0x50, (12 + 4 * s) % 256, u0, 0x50, (12 + 4 * s + 1) % 256, u1,
       0x50, (12 + 4 * s + 2) % 256, u2, 0x50, (12 + 4 * s + 3) % 256, u3] := by
  obtain ⟨w1, e1, e2, _⟩ := writeEEPROM3_ok ((12 + 4 * s) % 256) [u0, u1, u2, u3] w acks [] hl
    (by simpa using hlen) (fun a h => ⟨(hgood a h).1, (bit0_okay a).mp (hgood a h).2⟩)
    (by simpa using hans)
  rw [progFrames_four] at e2
  simp only [authoriseTag, List.take, e1, e2]
  exact ⟨trivial, trivial⟩

/-- C13: for a slot `s` in 0..59, on a device that is always listening and acknowledges the
four program commands successfully, `authoriseTag(uid, s)` returns true and appends exactly
the frames `[0x50, 12+4s+i, uid[i]]`, `i = 0, 1, 2, 3`, in this order, to the bytes sent;
every address byte lies in 12..251. -/
theorem authoriseTag_frames (s u0 u1 u2 u3 : Nat) (w : World) (acks : List Nat) (hs : s ≤ 59)
    (hl : AlwaysListening w) (hlen : acks.length = 4)
    (hgood : ∀ a, a ∈ acks → a < 256 ∧ a &&& 1 = 0xD6 &&& 1)
    (hans : Answers w.arrive w.rxObs w.rx acks) :
    (authoriseTag [u0, u1, u2, u3] s w).1 = some true ∧
    (authoriseTag [u0, u1, u2, u3] s w).2.tx = w.tx ++
      [0x50, 12 + 4 * s, u0, 0x50, 12 + 4 * s + 1, u1,
       0x50, 12 + 4 * s + 2, u2, 0x50, 12 + 4 * s + 3, u3] ∧
    (∀ i, i < 4 → 12 ≤ 12 + 4 * s + i ∧ 12 + 4 * s + i ≤ 251) := by
  have h := authoriseTag_run s u0 u1 u2 u3 w acks hl hlen hgood hans
  have h0 : (12 + 4 * s) % 256 = 12 + 4 * s := Nat.mod_eq_of_lt (by omega)
  have h1 : (12 + 4 * s + 1) % 256 = 12 + 4 * s + 1 := Nat.mod_eq_of_lt (by omega)
  have h2 : (12 + 4 * s + 2) % 256 = 12 + 4 * s + 2 := Nat.mod_eq_of_lt (by omega)
  have h3 : (12 + 4 * s + 3) % 256 = 12 + 4 * s + 3 := Nat.mod_eq_of_lt (by omega)
  rw [h0, h1, h2, h3] at h
  exact ⟨h.1, h.2, fun i hi => by omega⟩

/-- Witness for C13: the last slot, 59, whose bytes are 248..251. -/
theorem authoriseTag_frames_witness :
    (authoriseTag [0xDE, 0xAD, 0xBE, 0xEF] 59
      (init (fun _ => false) (fun _ => []) [0xD6, 0xD6, 0xD6, 0xD6])).1 = some true ∧
    (authoriseTag [0xDE, 0xAD, 0xBE, 0xEF] 59
      (init (fun _ => false) (fun _ => []) [0xD6, 0xD6, 0xD6, 0xD6])).2.tx =
      [0x50, 248, 0xDE, 0x50, 249, 0xAD, 0x50, 250, 0xBE, 0x50, 251, 0xEF] ∧
    (∀ i, i < 4 → 12 ≤ 12 + 4 * 59 + i ∧ 12 + 4 * 59 + i ≤ 251) :=
  authoriseTag_frames 59 0xDE 0xAD 0xBE 0xEF
    (init (fun _ => false) (fun _ => []) [0xD6, 0xD6, 0xD6, 0xD6]) [0xD6, 0xD6, 0xD6, 0xD6]
    (by decide) (fun _ => rfl) rfl (by decide)
    (answers_preloaded 0 [0xD6, 0xD6, 0xD6, 0xD6] [])

/-- C19 as stated fails: the slot number 64 is at least 61, yet `authoriseTag(uid, 64)` on a
fresh driver whose device acknowledges every command sends frames addressed to the EEPROM
bytes 12, 13, 14, 15, which are the bytes of slot 0 inside the authorisation list: the same
bytes as `authoriseTag(uid, 0)` sends. -/
theorem authoriseTag_slot64_aliases_slot0 :
    (authoriseTag [1, 2, 3, 4] 64
      (init (fun _ => false) (fun _ => []) [0xD6, 0xD6, 0xD6, 0xD6])).2.tx =
      [0x50, 12, 1, 0x50, 13, 2, 0x50, 14, 3, 0x50, 15, 4] ∧
    (authoriseTag [1, 2, 3, 4] 64
      (init (fun _ => false) (fun _ => []) [0xD6, 0xD6, 0xD6, 0xD6])).2.tx =
    (authoriseTag [1, 2, 3, 4] 0
      (init (fun _ => false) (fun _ => []) [0xD6, 0xD6, 0xD6, 0xD6])).2.tx ∧
    ¬ (∀ i, i < 4 → (12 + 4 * 64 + i) % 256 < 12 ∨ 251 < (12 + 4 * 64 + i) % 256) := by
  have h64 := (authoriseTag_run 64 1 2 3 4
    (init (fun _ => false) (fun _ => []) [0xD6, 0xD6, 0xD6, 0xD6]) [0xD6, 0xD6, 0xD6, 0xD6]
    (fun _ => rfl) rfl (by decide) (answers_preloaded 0 [0xD6, 0xD6, 0xD6, 0xD6] [])).2
  have h0 := (authoriseTag_run 0 1 2 3 4
    (init (fun _ => false) (fun _ => []) [0xD6, 0xD6, 0xD6, 0xD6]) [0xD6, 0xD6, 0xD6, 0xD6]
    (fun _ => rfl) rfl (by decide) (answers_preloaded 0 [0xD6, 0xD6, 0xD6, 0xD6] [])).2
  refine ⟨h64, h64.trans h0.symm, ?_⟩
  intro h
  have := h 0 (by decide)
  omega

/-- C19 amended: the address bytes are computed modulo 256 and the slot number is not
checked.  For every slot number `s` (0..255) the `i`-th frame of `authoriseTag(uid, s)` is
`[0x50, (12 + 4*s + i) mod 256, uid[i]]`; for `s` = 61, 62, 63 all four addresses lie below
the authorisation list (in 0..11), for `s` = 62 they are 4, 5, 6, 7, the bytes that
`writeEEPROMRWDH2Password` programs. -/
theorem authoriseTag_address_mod (s u0 u1 u2 u3 p0 p1 p2 p3 : Nat) (w : World)
    (acks : List Nat) (hs : s ≤ 255) (hl : AlwaysListening w) (hlen : acks.length = 4)
    (hgood : ∀ a, a ∈ acks → a < 256 ∧ a &&& 1 = 0xD6 &&& 1)
    (hans : Answers w.arrive w.rxObs w.rx acks) :
    (authoriseTag [u0, u1, u2, u3] s w).1 = some true ∧
    (authoriseTag [u0, u1, u2, u3] s w).2.tx = w.tx ++
      [0x50, (12 + 4 * s + 0) % 256, u0, 0x50, (12 + 4 * s + 1) % 256, u1,
       0x50, (12 + 4 * s + 2) % 256, u2, 0x50, (12 + 4 * s + 3) % 256, u3] ∧
    (61 ≤ s → s ≤ 63 → ∀ i, i < 4 → (12 + 4 * s + i) % 256 < 12) ∧
    (s = 62 → (authoriseTag [u0, u1, u2, u3] s w).2.tx =
      w.tx ++ [0x50, 4, u0, 0x50, 5, u1, 0x50, 6, u2, 0x50, 7, u3]) ∧
    (writeEEPROMRWDH2Password [p0, p1, p2, p3] w).2.tx =
      w.tx ++ [0x50, 4, p0, 0x50, 5, p1, 0x50, 6, p2, 0x50, 7, p3] := by
  have h := authoriseTag_run s u0 u1 u2 u3 w acks hl hlen hgood hans
  refine ⟨h.1, h.2, fun h1 h2 i hi => by omega, ?_, ?_⟩
  · intro h62
    subst h62
    exact h.2
  · obtain ⟨w1, e1, e2, _⟩ := writeEEPROM3_ok 4 [p0, p1, p2, p3] w acks [] hl
      (by simpa using hlen) (fun a h => ⟨(hgood a h).1, (bit0_okay a).mp (hgood a h).2⟩)
      (by simpa using hans)
    simp only [writeEEPROMRWDH2Password, List.take, e1, e2]
    simp [progFrames]

/-- Witness for the amended C19: slot number 62 on a fresh driver. -/
theorem authoriseTag_address_mod_witness :
    (authoriseTag [1, 2, 3, 4] 62
      (init (fun _ => false) (fun _ => []) [0xD6, 0xD6, 0xD6, 0xD6])).2.tx =
      [0x50, 4, 1, 0x50, 5, 2, 0x50, 6, 3, 0x50, 7, 4] ∧
    (writeEEPROMRWDH2Password [9, 8, 7, 6]
      (init (fun _ => false) (fun _ => []) [0xD6, 0xD6, 0xD6, 0xD6])).2.tx =
      [0x50, 4, 9, 0x50, 5, 8, 0x50, 6, 7, 0x50, 7, 6] :=
  ⟨(authoriseTag_address_mod 62 1 2 3 4 9 8 7 6
      (init (fun _ => false) (fun _ => []) [0xD6, 0xD6, 0xD6, 0xD6]) [0xD6, 0xD6, 0xD6, 0xD6]
      (by decide) (fun _ => rfl) rfl (by decide)
      (answers_preloaded 0 [0xD6, 0xD6, 0xD6, 0xD6] [])).2.2.2.1 rfl,
   (authoriseTag_address_mod 62 1 2 3 4 9 8 7 6
      (init (fun _ => false) (fun _ => []) [0xD6, 0xD6, 0xD6, 0xD6]) [0xD6, 0xD6, 0xD6, 0xD6]
      (by decide) (fun _ => rfl) rfl (by decide)
      (answers_preloaded 0 [0xD6, 0xD6, 0xD6, 0xD6] [])).2.2.2.2⟩

/-! ## User data -/

theorem write2_exchange (cmd mask : Nat) (w : World) (k1 k2 r : Nat) (rest : List Nat)
    (hk1 : k1 ≤ 200) (hk2 : k2 ≤ 200) (hl : ListensAfter w k1)
    (ha : AnswersAfter w k2 r rest) (hr : r < 256) :
    write2 cmd mask w =
      (none,
        { w with ctsReads := w.ctsReads + k1 + 1,
                 rxObs := w.rxObs + k2 + 2,
                 rx := rest ++ w.arrive (w.rxObs + k2 + 1),
                 tx := w.tx ++ [cmd],
                 millis := w.millis + 5 * k1 + 5 * k2 + 1,
                 last_ack := r }) := by
  simp only [write2, write3_exchange [cmd] mask w k1 k2 r rest hk1 hk2 hl ha hr]

/-- C15, the code at the failing input: on a fresh driver whose device listens and answers
0xD6, `getStatus()` sends exactly the byte 0x53, takes exactly the acknowledgment byte from
the receive buffer and stores it, but it does not report the masked result: the function it
returns the value of, `write(cmd, mask)`, ends without a `return` statement, so the value is
indeterminate instead of true. -/
theorem getStatus_no_value :
    (getStatus (init (fun _ => false) (fun _ => []) [0xD6])).1 = none ∧
    (getStatus (init (fun _ => false) (fun _ => []) [0xD6])).2.tx = [0x53] ∧
    (getStatus (init (fun _ => false) (fun _ => []) [0xD6])).2.rx = [] ∧
    (getStatus (init (fun _ => false) (fun _ => []) [0xD6])).2.rxObs = 2 ∧
    getLastAck (getStatus (init (fun _ => false) (fun _ => []) [0xD6])).2 = 0xD6 ∧
    0xD6 &&& 0x28 = 0xD6 &&& 0x28 := by
  have h := write2_exchange RWDH2_CMD_STATUS RWDH2_STATUS_MASK
    (init (fun _ => false) (fun _ => []) [0xD6]) 0 0 0xD6 [] (by decide) (by decide)
    (listensAfter_zero _ rfl) (answersAfter_zero _ _ _ rfl) (by decide)
  rw [getStatus, h]
  simp [init, getLastAck, RWDH2_CMD_STATUS]

/-! ## Timing of the pollers -/

/-- C16: for a timeout `t` in 1..65535, if the CTS line reads HIGH at every poll then
`listening(t)`, and if the receive buffer is empty at every poll then `available(t)`,
terminates and returns false after `ceil(t/5) = (t+4)/5` sleeps of 5 ms and `(t+4)/5 + 1`
evaluations of the condition, having logged the timeout; the accumulated wait
`5 * ((t+4)/5)` is at least `t` and less than `t + 5`.  Each poller depends on its own
condition only, and every bound on the number of evaluations larger than `(t+4)/5` gives this
result. -/
theorem poller_timeout (t fuel : Nat) (w : World) (ht1 : 1 ≤ t) (ht2 : t ≤ 65535)
    (hfuel : (t + 4) / 5 < fuel) :
    ((∀ j, j ≤ (t + 4) / 5 → w.cts (w.ctsReads + j) = true) →
      listening1 t fuel w =
        some (false, println "RWDH2::listening timeout"
          { w with ctsReads := w.ctsReads + (t + 4) / 5 + 1,
                   millis := w.millis + 5 * ((t + 4) / 5) })) ∧
    ((∀ j, j ≤ (t + 4) / 5 → w.rx ++ w.arrive (w.rxObs + j) = []) →
      available1 t fuel w =
        some (false, println "RWDH2::available timeout"
          { w with rx := [], rxObs := w.rxObs + (t + 4) / 5 + 1,
                   millis := w.millis + 5 * ((t + 4) / 5) })) ∧
    t ≤ 5 * ((t + 4) / 5) ∧ 5 * ((t + 4) / 5) < t + 5 :=
  ⟨fun hcts =>
     listeningLoop_false t ht1 ht2 ((t + 4) / 5) fuel 0 w rfl (by omega) rfl hfuel hcts,
   fun hrx =>
     availableLoop_false t ht1 ht2 ((t + 4) / 5) fuel 0 w rfl (by omega) rfl hfuel hrx,
   by omega, by omega⟩

/-- Witness for C16: the default timeout 1000 on fresh drivers; `listening` with the CTS line
stuck HIGH while a byte waits in the receive buffer, `available` with a silent device whose
CTS line is LOW: 200 sleeps, 201 evaluations, exactly 1000 ms each. -/
theorem poller_timeout_witness :
    listening1 1000 (pollFuel 1000) (init (fun _ => true) (fun _ => []) [0x41]) =
      some (false, println "RWDH2::listening timeout"
        { init (fun _ => true) (fun _ => []) [0x41] with ctsReads := 201, millis := 1000 }) ∧
    available1 1000 (pollFuel 1000) (init (fun _ => false) (fun _ => []) []) =
      some (false, println "RWDH2::available timeout"
        { init (fun _ => false) (fun _ => []) [] with rx := [], rxObs := 201,
                                                      millis := 1000 }) ∧
    1000 ≤ 5 * ((1000 + 4) / 5) ∧ 5 * ((1000 + 4) / 5) < 1000 + 5 :=
  ⟨(poller_timeout 1000 (pollFuel 1000) (init (fun _ => true) (fun _ => []) [0x41])
      (by decide) (by decide) (by decide)).1 (fun _ _ => rfl),
   (poller_timeout 1000 (pollFuel 1000) (init (fun _ => false) (fun _ => []) [])
      (by decide) (by decide) (by decide)).2.1 (fun _ _ => rfl),
   by decide, by decide⟩

/-- C17: for a timeout `t` in 1..65535 and `k ≤ ceil(t/5) = (t+4)/5`: if the CTS line reads
HIGH at the first `k` polls and LOW at poll `k+1` then `listening(t)`, and if the receive
buffer is empty at the first `k` polls and non-empty at poll `k+1` then `available(t)`,
returns true after `k` sleeps of 5 ms and `k+1` evaluations of the condition, and nothing is
logged; a poller whose condition holds at the first poll returns true without sleeping.  Each
poller depends on its own condition only, and every bound on the number of evaluations larger
than `k` gives this result. -/
theorem poller_success (t k fuel : Nat) (w : World) (_ht1 : 1 ≤ t) (ht2 : t ≤ 65535)
    (hk : k ≤ (t + 4) / 5) (hfuel : k < fuel) :
    (ListensAfter w k →
      listening1 t fuel w =
        some (true, { w with ctsReads := w.ctsReads + k + 1, millis := w.millis + 5 * k })) ∧
    (∀ (r : Nat) (rest : List Nat), AnswersAfter w k r rest →
      available1 t fuel w =
        some (true, { w with rx := r :: rest, rxObs := w.rxObs + k + 1,
                             millis := w.millis + 5 * k })) ∧
    (w.cts w.ctsReads = false →
      listening1 t fuel w = some (true, { w with ctsReads := w.ctsReads + 1 })) ∧
    (∀ (r : Nat) (rest : List Nat), w.rx ++ w.arrive w.rxObs = r :: rest →
      available1 t fuel w = some (true, { w with rx := r :: rest, rxObs := w.rxObs + 1 })) := by
  refine ⟨?_, ?_, ?_, ?_⟩
  · intro hl
    exact listeningLoop_true t ht2 k fuel 0 w rfl (Or.inr (by omega)) hfuel hl.1 hl.2
  · intro r rest ha
    exact availableLoop_true t ht2 k fuel 0 w r rest rfl (Or.inr (by omega)) hfuel ha.1 ha.2
  · intro h0
    have := listeningLoop_true t ht2 0 fuel 0 w rfl (Or.inr (by omega)) (by omega)
      (listensAfter_zero w h0).1 (listensAfter_zero w h0).2
    simpa [listening1] using this
  · intro r rest h0
    have := availableLoop_true t ht2 0 fuel 0 w r rest rfl (Or.inr (by omega)) (by omega)
      (answersAfter_zero w r rest h0).1 (answersAfter_zero w r rest h0).2
    simpa [available1] using this

/-- Witness for C17: the default timeout with `k = 200 = ceil(1000/5)`, the last poll at which
the pollers can still succeed, on fresh drivers; `listening` on a device that sends nothing,
`available` with the CTS line stuck HIGH; and `k = 0` for `listening`. -/
theorem poller_success_witness :
    listening1 1000 (pollFuel 1000) (init (fun n => decide (n < 200)) (fun _ => []) []) =
      some (true,
        { init (fun n => decide (n < 200)) (fun _ => []) [] with
          ctsReads := 201, millis := 1000 }) ∧
    available1 1000 (pollFuel 1000)
        (init (fun _ => true) (fun n => if n = 200 then [0x41] else []) []) =
      some (true,
        { init (fun _ => true) (fun n => if n = 200 then [0x41] else []) [] with
          rx := [0x41], rxObs := 201, millis := 1000 }) ∧
    listening1 1000 (pollFuel 1000) (init (fun _ => false) (fun _ => []) []) =
      some (true, { init (fun _ => false) (fun _ => []) [] with ctsReads := 1 }) :=
  ⟨(poller_success 1000 200 (pollFuel 1000)
      (init (fun n => decide (n < 200)) (fun _ => []) [])
      (by decide) (by decide) (by decide) (by decide)).1
      ⟨fun j hj => by simp [init]; omega, by simp [init]⟩,
   (poller_success 1000 200 (pollFuel 1000)
      (init (fun _ => true) (fun n => if n = 200 then [0x41] else []) [])
      (by decide) (by decide) (by decide) (by decide)).2.1 0x41 []
      ⟨fun j hj => by simp [init]; omega, by simp [init]⟩,
   (poller_success 1000 0 (pollFuel 1000) (init (fun _ => false) (fun _ => []) [])
      (by decide) (by decide) (by decide) (by decide)).2.2.1 rfl⟩

/-! ## The 16-bit poll timer -/

theorem listeningTimers_bounded (t : Nat) (ht : t ≤ 65535) :
    ∀ (fuel timer : Nat) (w : World), timer % 5 = 0 → timer ≤ 65535 →
      ∀ x, x ∈ listeningTimers t fuel timer w →
        x % 5 = 0 ∧ x ≤ 65535 ∧ (x < t → x + 5 ≤ 65535) := by
  intro fuel
  induction fuel with
  | zero => intro timer w _ _ x hx; simp [listeningTimers] at hx
  | succ f ih =>
    intro timer w h5 hb x hx
    simp only [listeningTimers, List.mem_cons] at hx
    rcases hx with rfl | hx
    · exact ⟨h5, hb, fun _ => by omega⟩
    · cases hc : (digitalRead w).1
      · simp [hc] at hx
      · simp only [hc, if_true] at hx
        by_cases hp : t > 0
        · by_cases hlt : timer < t
          · have hmod : (timer + 5) % 65536 = timer + 5 := Nat.mod_eq_of_lt (by omega)
            simp only [hp, hlt, if_true, hmod] at hx
            exact ih _ _ (by omega) (by omega) x hx
          · simp [hp, hlt] at hx
        · simp only [hp, if_false] at hx
          exact ih _ _ h5 hb x hx

theorem availableTimers_bounded (t : Nat) (ht : t ≤ 65535) :
    ∀ (fuel timer : Nat) (w : World), timer % 5 = 0 → timer ≤ 65535 →
      ∀ x, x ∈ availableTimers t fuel timer w →
        x % 5 = 0 ∧ x ≤ 65535 ∧ (x < t → x + 5 ≤ 65535) := by
  intro fuel
  induction fuel with
  | zero => intro timer w _ _ x hx; simp [availableTimers] at hx
  | succ f ih =>
    intro timer w h5 hb x hx
    simp only [availableTimers, List.mem_cons] at hx
    rcases hx with rfl | hx
    · exact ⟨h5, hb, fun _ => by omega⟩
    · cases hc : (serialAvailable w).1
      · simp only [hc, Bool.not_false, if_true] at hx
        by_cases hp : t > 0
        · by_cases hlt : timer < t
          · have hmod : (timer + 5) % 65536 = timer + 5 := Nat.mod_eq_of_lt (by omega)
            simp only [hp, hlt, if_true, hmod] at hx
            exact ih _ _ (by omega) (by omega) x hx
          · simp [hp, hlt] at hx
        · simp only [hp, if_false] at hx
          exact ih _ _ h5 hb x hx
      · simp [hc] at hx

theorem listeningLoop_eq_unbounded (t : Nat) (ht : t ≤ 65535) :
    ∀ (fuel timer : Nat) (w : World), timer % 5 = 0 → timer ≤ 65535 →
      listeningLoop t fuel timer w = listeningLoopUnbounded t fuel timer w := by
  intro fuel
  induction fuel with
  | zero => intro timer w _ _; rfl
  | succ f ih =>
    intro timer w h5 hb
    simp only [listeningLoop, listeningLoopUnbounded]
    cases hc : (digitalRead w).1
    · simp
    · simp only [if_true]
      by_cases hp : t > 0
      · by_cases hlt : timer < t
        · have hmod : (timer + 5) % 65536 = timer + 5 := Nat.mod_eq_of_lt (by omega)
          simp only [hp, hlt, if_true, hmod]
          exact ih _ _ (by omega) (by omega)
        · simp [hp, hlt]
      · simp only [hp, if_false]
        exact ih _ _ h5 hb

theorem availableLoop_eq_unbounded (t : Nat) (ht : t ≤ 65535) :
    ∀ (fuel timer : Nat) (w : World), timer % 5 = 0 → timer ≤ 65535 →
      availableLoop t fuel timer w = availableLoopUnbounded t fuel timer w := by
  intro fuel
  induction fuel with
  | zero => intro timer w _ _; rfl
  | succ f ih =>
    intro timer w h5 hb
    simp only [availableLoop, availableLoopUnbounded]
    cases hc : (serialAvailable w).1
    · simp only [Bool.not_false, if_true]
      by_cases hp : t > 0
      · by_cases hlt : timer < t
        · have hmod : (timer + 5) % 65536 = timer + 5 := Nat.mod_eq_of_lt (by omega)
          simp only [hp, hlt, if_true, hmod]
          exact ih _ _ (by omega) (by omega)
        · simp [hp, hlt]
      · simp only [hp, if_false]
        exact ih _ _ h5 hb
    · simp

theorem listeningTimers_length (t : Nat) :
    ∀ (fuel timer : Nat) (w : World) (r : Bool × World),
      listeningLoop t fuel timer w = some r →
      w.ctsReads + (listeningTimers t fuel timer w).length = r.2.ctsReads := by
  intro fuel
  induction fuel with
  | zero => intro timer w r h; simp [listeningLoop] at h
  | succ f ih =>
    intro timer w r h
    rw [listeningLoop] at h
    rw [listeningTimers]
    cases hc : (digitalRead w).1
    · simp only [hc] at h ⊢
      simp at h
      subst h
      simp [digitalRead]
    · simp only [hc, if_true] at h ⊢
      by_cases hp : t > 0
      · by_cases hlt : timer < t
        · simp only [hp, hlt, if_true] at h ⊢
          have := ih _ _ _ h
          simp only [delay, digitalRead, List.length_cons] at this ⊢
          omega
        · simp only [hp, hlt, if_true, if_false] at h ⊢
          simp at h
          subst h
          simp [digitalRead, println]
      · simp only [hp, if_false] at h ⊢
        have := ih _ _ _ h
        simp only [delay, digitalRead, List.length_cons] at this ⊢
        omega

theorem availableTimers_length (t : Nat) :
    ∀ (fuel timer : Nat) (w : World) (r : Bool × World),
      availableLoop t fuel timer w = some r →
      w.rxObs + (availableTimers t fuel timer w).length = r.2.rxObs := by
  intro fuel
  induction fuel with
  | zero => intro timer w r h; simp [availableLoop] at h
  | succ f ih =>
    intro timer w r h
    rw [availableLoop] at h
    rw [availableTimers]
    cases hc : (serialAvailable w).1
    · simp only [hc, Bool.not_false, if_true] at h ⊢
      by_cases hp : t > 0
      · by_cases hlt : timer < t
        · simp only [hp, hlt, if_true] at h ⊢
          have := ih _ _ _ h
          simp only [delay, serialAvailable, List.length_cons] at this ⊢
          omega
        · simp only [hp, hlt, if_true, if_false] at h ⊢
          simp at h
          subst h
          simp [serialAvailable, println]
      · simp only [hp, if_false] at h ⊢
        have := ih _ _ _ h
        simp only [delay, serialAvailable, List.length_cons] at this ⊢
        omega
    · simp only [hc] at h ⊢
      simp at h
      subst h
      simp [serialAvailable]

/-- C18: the 16-bit counter `timer` of the pollers never wraps.  For a timeout `t` in
1..65535, any state of the hardware and any number of loop iterations, every value that
`timer` holds in `listening(t)` and in `available(t)` is a multiple of 5 and at most 65535,
and whenever the increment `timer += 5` is executed (`timer < t`) `timer + 5 ≤ 65535`; hence
the pollers computed modulo 2^16 equal the pollers computed over the unbounded integers, and
both end within `(t+4)/5 + 1` evaluations of their condition. -/
theorem poller_timer_no_wrap (t fuel : Nat) (w : World) (ht1 : 1 ≤ t) (ht2 : t ≤ 65535) :
    (∀ x, x ∈ listeningTimers t fuel 0 w →
      x % 5 = 0 ∧ x ≤ 65535 ∧ (x < t → x + 5 ≤ 65535)) ∧
    (∀ x, x ∈ availableTimers t fuel 0 w →
      x % 5 = 0 ∧ x ≤ 65535 ∧ (x < t → x + 5 ≤ 65535)) ∧
    listening1 t fuel w = listeningLoopUnbounded t fuel 0 w ∧
    available1 t fuel w = availableLoopUnbounded t fuel 0 w ∧
    ((t + 4) / 5 < fuel →
      (listening1 t fuel w).isSome = true ∧ (available1 t fuel w).isSome = true) :=
  ⟨listeningTimers_bounded t ht2 fuel 0 w rfl (by decide),
   availableTimers_bounded t ht2 fuel 0 w rfl (by decide),
   listeningLoop_eq_unbounded t ht2 fuel 0 w rfl (by decide),
   availableLoop_eq_unbounded t ht2 fuel 0 w rfl (by decide),
   fun hf => ⟨listeningLoop_terminates t ht1 ht2 fuel 0 w rfl (by omega) (by omega),
     availableLoop_terminates t ht1 ht2 fuel 0 w rfl (by omega) (by omega)⟩⟩

/-- Witness for C18: the largest timeout, 65535, for which `timer` ends at 65535 = 5 * 13107,
on a fresh driver whose CTS line is always HIGH and whose device sends nothing. -/
theorem poller_timer_no_wrap_witness :
    (∀ x, x ∈ listeningTimers 65535 13109 0 (init (fun _ => true) (fun _ => []) []) →
      x % 5 = 0 ∧ x ≤ 65535 ∧ (x < 65535 → x + 5 ≤ 65535)) ∧
    (∀ x, x ∈ availableTimers 65535 13109 0 (init (fun _ => true) (fun _ => []) []) →
      x % 5 = 0 ∧ x ≤ 65535 ∧ (x < 65535 → x + 5 ≤ 65535)) ∧
    listening1 65535 13109 (init (fun _ => true) (fun _ => []) []) =
      listeningLoopUnbounded 65535 13109 0 (init (fun _ => true) (fun _ => []) []) ∧
    available1 65535 13109 (init (fun _ => true) (fun _ => []) []) =
      availableLoopUnbounded 65535 13109 0 (init (fun _ => true) (fun _ => []) []) ∧
    ((65535 + 4) / 5 < 13109 →
      (listening1 65535 13109 (init (fun _ => true) (fun _ => []) [])).isSome = true ∧
      (available1 65535 13109 (init (fun _ => true) (fun _ => []) [])).isSome = true) :=
  poller_timer_no_wrap 65535 13109 (init (fun _ => true) (fun _ => []) []) (by decide)
    (by decide)

end RWDH2
